import Mathlib

/-!
# Verification of the generic-snmp Companion module core

Shallow embedding of the module's OID utilities (`src/oidUtils.ts`), the
feedback/OID tracker (`src/oidtracker.js`), and the value-cache update path
(`handleVarbind` in `src/index.ts`), together with proofs about the
properties claimed in the specification.

JavaScript strings are modelled as lists of characters (`JStr`), Node
buffers as lists of byte values (`List Nat`), JS `Map`/`Set` as association
lists / lists, and exceptions as `Except` / `Option` results.
-/

namespace GenericSnmp

/-- JavaScript strings, modelled as their character sequences. -/
abbrev JStr := List Char

/-- The JS whitespace class used by `String.prototype.trim` (the characters
relevant to this code base; all members of the full ECMAScript class that can
appear here). -/
def jsWhitespace (c : Char) : Bool :=
  c = ' ' || c = '\t' || c = '\n' || c = '\r' ||
  c = Char.ofNat 11 || c = Char.ofNat 12 || c = Char.ofNat 0xa0 || c = Char.ofNat 0xfeff

/-- `String.prototype.trim`: drop whitespace from both ends. -/
def jsTrim (s : JStr) : JStr :=
  ((s.dropWhile jsWhitespace).reverse.dropWhile jsWhitespace).reverse

/-- `trimOid` from `src/oidUtils.ts`: repeatedly strip a leading `.`
(`while (oid.startsWith('.')) oid = oid.substring(1)`), then `trim()`. -/
def trimOid (s : JStr) : JStr :=
  jsTrim (s.dropWhile (fun c => c = '.'))

/-- Decimal digit test (`\d` / `[0-9]`). -/
def isDigitCh (c : Char) : Bool := '0' ≤ c && c ≤ '9'

/-- One arc of the OID regex: `0|[1-9]\d*` (a lone zero, or a nonzero digit
followed by any digits). -/
def isArcStr (s : JStr) : Bool :=
  match s with
  | [] => false
  | c :: rest =>
    (c = '0' && rest.isEmpty) || (('1' ≤ c && c ≤ '9') && rest.all isDigitCh)

/-- Split a character list at every `.` (the decomposition performed by the
OID regex `^(0|1|2)(\.(0|[1-9]\d*))+$`). Always returns at least one part. -/
def splitOnDot (s : JStr) : List JStr :=
  match s with
  | [] => [[]]
  | '.' :: rest => [] :: splitOnDot rest
  | c :: rest =>
    match splitOnDot rest with
    | [] => [[c]]
    | a :: as => (c :: a) :: as

/-- `isValidSnmpOid` from `src/oidUtils.ts`: the regex
`^(0|1|2)(\.(0|[1-9]\d*))+$` — first arc is a single `0`, `1` or `2`,
followed by at least one `.`-separated arc `0|[1-9]\d*`. -/
def isValidSnmpOid (s : JStr) : Bool :=
  match splitOnDot s with
  | [] => false
  | a :: rest =>
    (a = ['0'] || a = ['1'] || a = ['2']) && !rest.isEmpty && rest.all isArcStr

example : isValidSnmpOid "1.3.6.1.2.1".data = true := by decide
example : isValidSnmpOid "0.1.2.3".data = true := by decide
example : isValidSnmpOid "2.16.840".data = true := by decide
example : isValidSnmpOid "3.6.1".data = false := by decide
example : isValidSnmpOid ".1.3.6.1".data = false := by decide
example : isValidSnmpOid "1.3.6.1.".data = false := by decide
example : isValidSnmpOid "1.03.6".data = false := by decide
example : isValidSnmpOid "".data = false := by decide
example : isValidSnmpOid "1".data = false := by decide
example : isValidSnmpOid "1.0".data = true := by decide
example : trimOid "...1.3.6.1".data = "1.3.6.1".data := by decide
example : trimOid "  1.3.6.1  ".data = "1.3.6.1".data := by decide
example : trimOid "  .1.3.6.1  ".data = ".1.3.6.1".data := by decide

theorem dropWhile_eq_self_of_all {p : Char → Bool} {s : JStr}
    (h : ∀ c ∈ s, p c = false) : s.dropWhile p = s := by
  cases s with
  | nil => rfl
  | cons a t => simp [List.dropWhile_cons, h a (by simp)]

theorem jsTrim_eq_self {s : JStr} (h : ∀ c ∈ s, jsWhitespace c = false) :
    jsTrim s = s := by
  unfold jsTrim
  rw [dropWhile_eq_self_of_all h, dropWhile_eq_self_of_all (by simpa using h)]
  simp

theorem splitOnDot_ne_nil (s : JStr) : splitOnDot s ≠ [] := by
  rw [splitOnDot.eq_def]
  split
  · simp
  · simp
  · split <;> simp

theorem splitOnDot_cons_dot (t : JStr) : splitOnDot ('.' :: t) = [] :: splitOnDot t := rfl

theorem splitOnDot_cons_ne {a : Char} {t : JStr} (ha : a ≠ '.') :
    splitOnDot (a :: t) =
      (a :: (splitOnDot t).headD []) :: (splitOnDot t).tail := by
  rw [splitOnDot.eq_def]
  split
  · simp_all
  · rename_i heq; rw [List.cons.injEq] at heq; exact absurd heq.1 ha
  · rename_i c rest hne heq
    rw [List.cons.injEq] at heq
    obtain ⟨rfl, rfl⟩ := heq
    cases hsp : splitOnDot t with
    | nil => exact absurd hsp (splitOnDot_ne_nil t)
    | cons b bs => simp

theorem mem_splitOnDot {s : JStr} {c : Char} (hc : c ∈ s) :
    c = '.' ∨ ∃ p ∈ splitOnDot s, c ∈ p := by
  induction s with
  | nil => cases hc
  | cons a t ih =>
    by_cases ha : a = '.'
    · subst ha
      rw [splitOnDot_cons_dot]
      rcases List.mem_cons.mp hc with rfl | hc
      · exact Or.inl rfl
      · rcases ih hc with h | ⟨p, hp, hcp⟩
        · exact Or.inl h
        · exact Or.inr ⟨p, List.mem_cons_of_mem _ hp, hcp⟩
    · rw [splitOnDot_cons_ne ha]
      cases hsp : splitOnDot t with
      | nil => exact absurd hsp (splitOnDot_ne_nil t)
      | cons b bs =>
        simp only [List.headD_cons, List.tail_cons]
        rcases List.mem_cons.mp hc with rfl | hc
        · exact Or.inr ⟨c :: b, List.mem_cons_self _ _, List.mem_cons_self _ _⟩
        · rcases ih hc with h | ⟨p, hp, hcp⟩
          · exact Or.inl h
          · rw [hsp] at hp
            rcases List.mem_cons.mp hp with rfl | hp
            · exact Or.inr ⟨a :: p, List.mem_cons_self _ _, List.mem_cons_of_mem _ hcp⟩
            · exact Or.inr ⟨p, List.mem_cons_of_mem _ hp, hcp⟩

theorem splitOnDot_head {s : JStr} {c : Char} {a : JStr} {as : List JStr}
    (h : splitOnDot s = (c :: a) :: as) : ∃ r, s = c :: r := by
  cases s with
  | nil =>
    rw [show splitOnDot [] = [[]] from rfl] at h
    simp at h
  | cons b t =>
    by_cases hb : b = '.'
    · subst hb; rw [splitOnDot_cons_dot] at h; simp at h
    · rw [splitOnDot_cons_ne hb] at h
      rw [List.cons.injEq, List.cons.injEq] at h
      exact ⟨t, by rw [h.1.1]⟩

theorem isArcStr_digits {p : JStr} (h : isArcStr p = true) :
    ∀ c ∈ p, isDigitCh c = true := by
  match p with
  | [] => simp [isArcStr] at h
  | c :: rest =>
    simp only [isArcStr, Bool.or_eq_true, Bool.and_eq_true, decide_eq_true_eq,
      List.isEmpty_iff] at h
    intro d hd
    rcases List.mem_cons.mp hd with rfl | hd
    · rcases h with ⟨hc, _⟩ | ⟨⟨h1, h9⟩, _⟩
      · subst hc; decide
      · simp only [isDigitCh, Bool.and_eq_true, decide_eq_true_eq]
        exact ⟨le_trans (by decide) h1, h9⟩
    · rcases h with ⟨_, hrest⟩ | ⟨_, hall⟩
      · simp [hrest] at hd
      · exact List.all_eq_true.mp hall d hd

theorem isValidSnmpOid_parts {s : JStr} (h : isValidSnmpOid s = true) :
    ∃ a rest, splitOnDot s = a :: rest ∧
      (a = ['0'] ∨ a = ['1'] ∨ a = ['2']) ∧ rest ≠ [] ∧
      ∀ p ∈ rest, isArcStr p = true := by
  unfold isValidSnmpOid at h
  cases hsp : splitOnDot s with
  | nil => rw [hsp] at h; simp at h
  | cons a rest =>
    rw [hsp] at h
    simp only [Bool.and_eq_true, Bool.or_eq_true, Bool.not_eq_true',
      decide_eq_true_eq] at h
    obtain ⟨⟨ha, hne⟩, hall⟩ := h
    have hne2 : rest ≠ [] := by
      intro hr; rw [hr] at hne; simp at hne
    refine ⟨a, rest, rfl, ?_, hne2, List.all_eq_true.mp hall⟩
    rcases ha with (h0 | h0) | h0
    · exact Or.inl h0
    · exact Or.inr (Or.inl h0)
    · exact Or.inr (Or.inr h0)

/-- Every character of a valid SNMP OID is a dot or a digit. -/
theorem isValidSnmpOid_chars {s : JStr} (h : isValidSnmpOid s = true) :
    ∀ c ∈ s, c = '.' ∨ isDigitCh c = true := by
  obtain ⟨a, rest, hsp, ha, -, hall⟩ := isValidSnmpOid_parts h
  intro c hc
  rcases mem_splitOnDot hc with hdot | ⟨p, hp, hcp⟩
  · exact Or.inl hdot
  · rw [hsp] at hp
    rcases List.mem_cons.mp hp with rfl | hp
    · refine Or.inr ?_
      rcases ha with h | h | h <;> rw [h] at hcp <;>
        rcases List.mem_singleton.mp hcp with rfl <;> decide
    · exact Or.inr (isArcStr_digits (hall p hp) c hcp)

/-- A valid SNMP OID starts with `0`, `1` or `2`. -/
theorem isValidSnmpOid_head {s : JStr} (h : isValidSnmpOid s = true) :
    ∃ r, s = '0' :: r ∨ s = '1' :: r ∨ s = '2' :: r := by
  obtain ⟨a, rest, hsp, ha, -, -⟩ := isValidSnmpOid_parts h
  rcases ha with h0 | h0 | h0 <;> rw [h0] at hsp
  · obtain ⟨r, hr⟩ := splitOnDot_head hsp; exact ⟨r, Or.inl hr⟩
  · obtain ⟨r, hr⟩ := splitOnDot_head hsp; exact ⟨r, Or.inr (Or.inl hr)⟩
  · obtain ⟨r, hr⟩ := splitOnDot_head hsp; exact ⟨r, Or.inr (Or.inr hr)⟩

/-- A valid SNMP OID is already canonical: `trimOid` does not change it. -/
theorem trimOid_eq_self_of_valid {s : JStr} (h : isValidSnmpOid s = true) :
    trimOid s = s := by
  have hnw : ∀ c ∈ s, jsWhitespace c = false := by
    intro c hc
    rcases isValidSnmpOid_chars h c hc with rfl | hd
    · decide
    · simp only [isDigitCh, Bool.and_eq_true, decide_eq_true_eq] at hd
      obtain ⟨h1, h2⟩ := hd
      simp only [jsWhitespace, Bool.or_eq_false_iff, decide_eq_false_iff_not]
      and_intros <;> (rintro rfl; revert h1 h2; decide)
  have hdot : s.dropWhile (fun c => c = '.') = s := by
    obtain ⟨r, hr⟩ := isValidSnmpOid_head h
    rcases hr with hr | hr | hr <;> rw [hr] <;> simp [List.dropWhile_cons]
  unfold trimOid
  rw [hdot, jsTrim_eq_self hnw]

/-- Numeric value of a digit character (`0`-`9`, `a`-`z`, `A`-`Z`), as used by
JS string-to-number parsing. -/
def charDigitVal (c : Char) : Option Nat :=
  if '0' ≤ c && c ≤ '9' then some (c.toNat - '0'.toNat)
  else if 'a' ≤ c && c ≤ 'z' then some (c.toNat - 'a'.toNat + 10)
  else if 'A' ≤ c && c ≤ 'Z' then some (c.toNat - 'A'.toNat + 10)
  else none

/-- Whether `c` is a digit in radix `r`. -/
def isRadixDigit (r : Nat) (c : Char) : Bool :=
  match charDigitVal c with
  | some d => d < r
  | none => false

/-- Value of a digit string in radix `r` (most significant first). -/
def radixVal (r : Nat) (ds : JStr) : Nat :=
  ds.foldl (fun a c => r * a + ((charDigitVal c).getD 0)) 0

/-- Parse a complete digit sequence in radix `r`; fails on an empty sequence
or any out-of-radix character. -/
def parseRadix (r : Nat) (ds : JStr) : Option Nat :=
  if !ds.isEmpty && ds.all (isRadixDigit r) then some (radixVal r ds) else none

/-- Base-`b` digits of `n`, most significant first, empty for `0`; the
first argument is recursion fuel (any fuel at least `n` gives the true
digits). -/
def natDigitsF (b : Nat) : Nat → Nat → JStr
  | 0, _ => []
  | _ + 1, 0 => []
  | fuel + 1, n + 1 => natDigitsF b fuel ((n + 1) / b) ++ [Nat.digitChar ((n + 1) % b)]

theorem natDigitsF_congr {b : Nat} (hb : 2 ≤ b) :
    ∀ fuel1 fuel2 n, n ≤ fuel1 → n ≤ fuel2 →
      natDigitsF b fuel1 n = natDigitsF b fuel2 n := by
  intro fuel1
  induction fuel1 with
  | zero =>
    intro fuel2 n h1 h2
    interval_cases n
    cases fuel2 <;> rfl
  | succ f ihf =>
    intro fuel2 n h1 h2
    match n with
    | 0 => cases fuel2 <;> rfl
    | m + 1 =>
      match fuel2, h2 with
      | f2 + 1, h2 =>
        rw [natDigitsF, natDigitsF]
        have hdiv : (m + 1) / b < m + 1 := Nat.div_lt_self (Nat.succ_pos m) hb
        rw [ihf f2 ((m + 1) / b) (by omega) (by omega)]

/-- Hex digits (most significant first) of `n`, lowercase, empty for `0`. -/
def natHexDigits (n : Nat) : JStr := natDigitsF 16 n n

theorem natHexDigits_succ (n : Nat) :
    natHexDigits (n + 1) = natHexDigits ((n + 1) / 16) ++ [Nat.digitChar ((n + 1) % 16)] := by
  show natDigitsF 16 (n + 1) (n + 1) = _
  rw [natDigitsF]
  have hdiv : (n + 1) / 16 < n + 1 := Nat.div_lt_self (Nat.succ_pos n) (by decide)
  rw [natDigitsF_congr (by decide) n ((n + 1) / 16) ((n + 1) / 16) (by omega) le_rfl]
  rfl

/-- `n.toString(16)` for a non-negative BigInt: lowercase hex, `"0"` for 0. -/
def natToHex (n : Nat) : JStr := if n = 0 then ['0'] else natHexDigits n

/-- Decimal digits (most significant first) of `n`, empty for `0`. -/
def natDecDigits (n : Nat) : JStr := natDigitsF 10 n n

theorem natDecDigits_succ (n : Nat) :
    natDecDigits (n + 1) = natDecDigits ((n + 1) / 10) ++ [Nat.digitChar ((n + 1) % 10)] := by
  show natDigitsF 10 (n + 1) (n + 1) = _
  rw [natDigitsF]
  have hdiv : (n + 1) / 10 < n + 1 := Nat.div_lt_self (Nat.succ_pos n) (by decide)
  rw [natDigitsF_congr (by decide) n ((n + 1) / 10) ((n + 1) / 10) (by omega) le_rfl]
  rfl

/-- Canonical decimal string of `n` (`String(n)` for a non-negative int). -/
def natToDec (n : Nat) : JStr := if n = 0 then ['0'] else natDecDigits n

/-- Canonical decimal string of an integer (`String(n)`; note
`String(-0) = "0"`). -/
def intToDec (i : Int) : JStr :=
  if i < 0 then '-' :: natToDec i.natAbs else natToDec i.toNat

/-- `String.prototype.padStart(len, c)`. -/
def padStart (len : Nat) (c : Char) (s : JStr) : JStr :=
  List.replicate (len - s.length) c ++ s

/-- `String.prototype.padEnd(len, c)`. -/
def padEnd (len : Nat) (c : Char) (s : JStr) : JStr :=
  s ++ List.replicate (len - s.length) c

/-- ECMAScript `StringToBigInt` (the behaviour of `BigInt(string)`): trim
whitespace, then accept an optionally-signed decimal digit sequence or an
unsigned `0x`/`0o`/`0b` literal; an empty (trimmed) string is `0`; anything
else is a `SyntaxError`, modelled as `none`. -/
def jsBigIntOfString (s : JStr) : Option Int :=
  match jsTrim s with
  | [] => some 0
  | '0' :: 'x' :: ds => (parseRadix 16 ds).map Int.ofNat
  | '0' :: 'X' :: ds => (parseRadix 16 ds).map Int.ofNat
  | '0' :: 'o' :: ds => (parseRadix 8 ds).map Int.ofNat
  | '0' :: 'O' :: ds => (parseRadix 8 ds).map Int.ofNat
  | '0' :: 'b' :: ds => (parseRadix 2 ds).map Int.ofNat
  | '0' :: 'B' :: ds => (parseRadix 2 ds).map Int.ofNat
  | '-' :: ds => (parseRadix 10 ds).map (fun n => -(n : Int))
  | '+' :: ds => (parseRadix 10 ds).map Int.ofNat
  | ds => (parseRadix 10 ds).map Int.ofNat

example : jsBigIntOfString "18446744073709551615".data =
    some 18446744073709551615 := by decide
example : jsBigIntOfString " 42 ".data = some 42 := by decide
example : jsBigIntOfString "-7".data = some (-7) := by decide
example : jsBigIntOfString "0xff".data = some 255 := by decide
example : jsBigIntOfString "".data = some 0 := by decide
example : jsBigIntOfString "0x".data = none := by decide
example : jsBigIntOfString "abc".data = none := by decide
example : jsBigIntOfString "-0x10".data = none := by decide

/-- One byte rendered as two lowercase hex characters (one byte of
`buffer.toString('hex')`). -/
def byteToHex (b : Nat) : JStr := [Nat.digitChar (b / 16), Nat.digitChar (b % 16)]

/-- `buffer.toString('hex')` over the byte list. -/
def bytesToHex (bs : List Nat) : JStr := (bs.map byteToHex).flatten

/-- `Buffer.from(hexString, 'hex')`: consume pairs of hex digits, stopping at
the first non-hex pair or lone trailing character. -/
def hexToBytes : JStr → List Nat
  | c1 :: c2 :: rest =>
    match charDigitVal c1, charDigitVal c2 with
    | some h, some l => if h < 16 && l < 16 then (16 * h + l) :: hexToBytes rest else []
    | _, _ => []
  | _ => []

/-- `buffer.slice(start, end)` for non-negative positions (clamped to the
buffer length, as Node does). -/
def bufSlice (bs : List Nat) (start stop : Nat) : List Nat := (bs.take stop).drop start

/-- `bufferToBigInt` from `src/oidUtils.ts`:
`BigInt('0x' + buffer.slice(start, end).toString('hex'))`. A `none` result
models the `SyntaxError` that `BigInt` raises on the digit-less string
`"0x"`. -/
def bufferToBigInt (bs : List Nat) (start stop : Nat) : Option Int :=
  jsBigIntOfString ('0' :: 'x' :: bytesToHex (bufSlice bs start stop))

example : bufferToBigInt [0, 0, 0, 1] 0 4 = some 1 := by decide
example : bufferToBigInt [255, 255, 255, 255] 0 4 = some 4294967295 := by decide
example : bufferToBigInt [0, 0, 0, 1, 0, 2] 4 6 = some 2 := by decide
example : bufferToBigInt [0, 0] 0 2 = some 0 := by decide
example : bufferToBigInt [] 0 0 = none := by decide

/-- The sixteen characters `buffer.toString('hex')` can produce (the digits
`0`-`9` followed by `a`-`f`). -/
def lowerHexChars : List Char := (List.range 16).map Nat.digitChar

theorem digitChar_mem_lowerHex : ∀ d < 16, Nat.digitChar d ∈ lowerHexChars := by decide

theorem charDigitVal_digitChar : ∀ d < 16, charDigitVal (Nat.digitChar d) = some d := by decide

theorem lowerHex_charDigitVal :
    ∀ c ∈ lowerHexChars, (charDigitVal c).isSome = true ∧
      (charDigitVal c).getD 0 < 16 ∧ Nat.digitChar ((charDigitVal c).getD 0) = c := by decide

theorem lowerHex_not_whitespace : ∀ c ∈ lowerHexChars, jsWhitespace c = false := by decide

theorem radixVal_append (r : Nat) (xs : JStr) (c : Char) :
    radixVal r (xs ++ [c]) = r * radixVal r xs + (charDigitVal c).getD 0 := by
  unfold radixVal
  rw [List.foldl_append]
  rfl

theorem radixVal_natHexDigits (n : Nat) : radixVal 16 (natHexDigits n) = n := by
  induction n using Nat.strong_induction_on with
  | _ n ih =>
    match n with
    | 0 => rfl
    | m + 1 =>
      rw [natHexDigits_succ, radixVal_append,
        ih ((m + 1) / 16) (Nat.div_lt_self (Nat.succ_pos m) (by decide)),
        charDigitVal_digitChar ((m + 1) % 16) (Nat.mod_lt _ (by decide))]
      simp only [Option.getD_some]
      omega

theorem radixVal_zeros_append (r : Nat) (k : Nat) (s : JStr) :
    radixVal r (List.replicate k '0' ++ s) = radixVal r s := by
  have h : ∀ m, List.foldl (fun a c => r * a + ((charDigitVal c).getD 0)) 0
      (List.replicate m '0') = 0 := by
    intro m
    induction m with
    | zero => rfl
    | succ m ihm =>
      rw [List.replicate_succ, List.foldl_cons]
      have : r * 0 + ((charDigitVal '0').getD 0) = 0 := by
        rw [show (charDigitVal '0').getD 0 = 0 from by decide]
        omega
      rw [this, ihm]
  unfold radixVal
  rw [List.foldl_append, h]

theorem natHexDigits_mem (n : Nat) : ∀ c ∈ natHexDigits n, c ∈ lowerHexChars := by
  induction n using Nat.strong_induction_on with
  | _ n ih =>
    match n with
    | 0 => intro c hc; cases hc
    | m + 1 =>
      intro c hc
      rw [natHexDigits_succ] at hc
      rcases List.mem_append.mp hc with h | h
      · exact ih ((m + 1) / 16) (Nat.div_lt_self (Nat.succ_pos m) (by decide)) c h
      · rcases List.mem_singleton.mp h with rfl
        exact digitChar_mem_lowerHex _ (Nat.mod_lt _ (by decide))

theorem natHexDigits_length_le : ∀ k n, n < 16 ^ k → (natHexDigits n).length ≤ k := by
  intro k
  induction k with
  | zero =>
    intro n hn
    interval_cases n
    exact le_rfl
  | succ k ihk =>
    intro n hn
    match n with
    | 0 => exact Nat.zero_le _
    | m + 1 =>
      rw [natHexDigits_succ, List.length_append, List.length_singleton]
      have hq : (m + 1) / 16 < 16 ^ k := by
        rw [Nat.div_lt_iff_lt_mul (by decide : 0 < 16)]
        calc m + 1 < 16 ^ (k + 1) := hn
        _ = 16 ^ k * 16 := by ring
      have := ihk _ hq
      omega

theorem bytesToHex_length (bs : List Nat) : (bytesToHex bs).length = 2 * bs.length := by
  induction bs with
  | nil => rfl
  | cons b t ih =>
    unfold bytesToHex at ih ⊢
    rw [List.map_cons, List.flatten_cons, List.length_append, ih]
    simp [byteToHex]
    omega

/-- Two-step structural induction on character lists. -/
theorem twoStepInduction {P : JStr → Prop} (h0 : P []) (h1 : ∀ c, P [c])
    (h2 : ∀ c1 c2 t, P t → P (c1 :: c2 :: t)) : ∀ t, P t
  | [] => h0
  | [c] => h1 c
  | c1 :: c2 :: t => h2 c1 c2 t (twoStepInduction h0 h1 h2 t)

theorem hexToBytes_cons {c1 c2 : Char} {t : JStr} {d1 d2 : Nat}
    (he1 : charDigitVal c1 = some d1) (he2 : charDigitVal c2 = some d2)
    (h1 : d1 < 16) (h2 : d2 < 16) :
    hexToBytes (c1 :: c2 :: t) = (16 * d1 + d2) :: hexToBytes t := by
  simp [hexToBytes, he1, he2, h1, h2]

theorem bytesToHex_hexToBytes {t : JStr} (hmem : ∀ c ∈ t, c ∈ lowerHexChars)
    (hev : t.length % 2 = 0) : bytesToHex (hexToBytes t) = t := by
  induction t using twoStepInduction with
  | h0 => rfl
  | h1 c => simp at hev
  | h2 c1 c2 rest ih =>
    obtain ⟨hs1, hlt1, hd1⟩ := lowerHex_charDigitVal c1 (hmem c1 (by simp))
    obtain ⟨hs2, hlt2, hd2⟩ := lowerHex_charDigitVal c2 (hmem c2 (by simp))
    obtain ⟨d1, he1⟩ := Option.isSome_iff_exists.mp hs1
    obtain ⟨d2, he2⟩ := Option.isSome_iff_exists.mp hs2
    rw [he1] at hlt1 hd1
    rw [he2] at hlt2 hd2
    simp only [Option.getD_some] at hlt1 hlt2 hd1 hd2
    rw [hexToBytes_cons he1 he2 hlt1 hlt2]
    unfold bytesToHex
    rw [List.map_cons, List.flatten_cons]
    have hrest : bytesToHex (hexToBytes rest) = rest := by
      refine ih (fun c hc => hmem c (by simp [hc])) ?_
      simp at hev
      omega
    unfold bytesToHex at hrest
    rw [hrest]
    have hbyte : byteToHex (16 * d1 + d2) = [c1, c2] := by
      unfold byteToHex
      have e1 : (16 * d1 + d2) / 16 = d1 := by omega
      have e2 : (16 * d1 + d2) % 16 = d2 := by omega
      rw [e1, e2, hd1, hd2]
    rw [hbyte]
    rfl

theorem jsBigIntOfString_hexCons {t : JStr} (hmem : ∀ c ∈ t, c ∈ lowerHexChars)
    (hne : t ≠ []) :
    jsBigIntOfString ('0' :: 'x' :: t) = some (Int.ofNat (radixVal 16 t)) := by
  have hws : ∀ c ∈ ('0' :: 'x' :: t), jsWhitespace c = false := by
    intro c hc
    rcases List.mem_cons.mp hc with rfl | hc
    · decide
    · rcases List.mem_cons.mp hc with rfl | hc
      · decide
      · exact lowerHex_not_whitespace c (hmem c hc)
  have hall : t.all (isRadixDigit 16) = true := by
    rw [List.all_eq_true]
    intro c hc
    obtain ⟨hs, hlt, -⟩ := lowerHex_charDigitVal c (hmem c hc)
    obtain ⟨d, he⟩ := Option.isSome_iff_exists.mp hs
    rw [he] at hlt
    simp only [Option.getD_some] at hlt
    simp [isRadixDigit, he, hlt]
  unfold jsBigIntOfString
  rw [jsTrim_eq_self hws]
  have hp : parseRadix 16 t = some (radixVal 16 t) := by
    unfold parseRadix
    rw [if_pos]
    simp [hall, List.isEmpty_iff, hne]
  cases t with
  | nil => exact absurd rfl hne
  | cons a r => simp [hp]

/-! ## Varbind values and `validateAndConvertVarbind` (`src/oidUtils.ts`) -/

/-- `INT32_MIN` from `src/oidUtils.ts`. -/
def INT32_MIN : Int := -2147483648

/-- `INT32_MAX` from `src/oidUtils.ts`. -/
def INT32_MAX : Int := 2147483647

/-- `UINT32_MAX` from `src/oidUtils.ts`. -/
def UINT32_MAX : Int := 4294967295

/-- `UINT64_MAX` from `src/oidUtils.ts`. -/
def UINT64_MAX : Int := 18446744073709551615

/-- net-snmp `ObjectType` codes (the values of the library's enum). -/
def ObjTy.Boolean : Nat := 1

def ObjTy.Integer : Nat := 2

def ObjTy.BitString : Nat := 3

def ObjTy.OctetString : Nat := 4

def ObjTy.Null : Nat := 5

def ObjTy.OID : Nat := 6

def ObjTy.IpAddress : Nat := 64

def ObjTy.Counter : Nat := 65

def ObjTy.Gauge : Nat := 66

def ObjTy.TimeTicks : Nat := 67

def ObjTy.Opaque : Nat := 68

def ObjTy.Counter64 : Nat := 70

def ObjTy.NoSuchObject : Nat := 128

def ObjTy.NoSuchInstance : Nat := 129

def ObjTy.EndOfMibView : Nat := 130

/-- Runtime JS values a varbind's `value` field can hold. -/
inductive JSValue where
  | jstr (s : JStr)
  | jnum (n : Int)
  | jbool (b : Bool)
  | jnull
  | jundefined
  | jbuffer (bs : List Nat)
  | jbigint (n : Int)
deriving DecidableEq, Repr

/-- `value.toString()` for a defined, non-null value. Numbers in this module
are integral (modelled as `Int`); buffer bytes are decoded as code points,
which is exact for the ASCII payloads handled here. -/
def jsToString : JSValue → JStr
  | .jstr s => s
  | .jnum n => intToDec n
  | .jbool true => "true".data
  | .jbool false => "false".data
  | .jnull => []
  | .jundefined => []
  | .jbuffer bs => bs.map Char.ofNat
  | .jbigint n => intToDec n

/-- `varbind.value?.toString() ?? ''` — optional chaining turns `null` and
`undefined` into the empty string. -/
def rawOf : JSValue → JStr
  | .jnull => []
  | .jundefined => []
  | v => jsToString v

/-- An SNMP varbind as handled by `validateAndConvertVarbind`. -/
structure Varbind where
  oid : JStr
  type : Nat
  value : JSValue
deriving DecidableEq, Repr

/-- The errors thrown by `validateAndConvertVarbind` / `validateVarbinds`,
one constructor per `throw` site, carrying the interpolated data. -/
inductive ConvErr where
  | invalidOid (oid : JStr)
  | cannotConvertBoolean (raw : JStr)
  | cannotConvertInteger (raw : JStr)
  | integerOutOfRange (n : Int)
  | cannotConvertOpaque (raw : JStr)
  | cannotConvertOid (raw : JStr)
  | cannotConvertIpAddress (raw : JStr)
  | ipOctetOutOfRange (raw : JStr)
  | cannotConvertUint32 (raw : JStr)
  | uint32OutOfRange (n : Int) (t : Nat)
  | cannotConvertCounter64 (raw : JStr)
  | counter64OutOfRange (n : Int)
  | unsupportedObjectType (t : Nat)
  | varbindAtIndex (i : Nat) (e : ConvErr)
deriving DecidableEq, Repr

/-- `String.prototype.toLowerCase` (ASCII, which covers the accepted
boolean spellings). -/
def jsToLower (s : JStr) : JStr := s.map Char.toLower

/-- Digit-prefix part of `Number.parseInt(u, r)` after sign handling: for
radix 16 an optional `0x`/`0X` prefix is skipped, then the longest digit
prefix is taken; no digits means `NaN` (`none`). The model is
exact-integer where JS doubles would round above 2^53; for this module the
difference can only exchange one thrown error for another. -/
def parseIntDigits (r : Nat) (u : JStr) : Option Nat :=
  let u := if r = 16 then
      (match u with
       | '0' :: 'x' :: rest => rest
       | '0' :: 'X' :: rest => rest
       | _ => u)
    else u
  let ds := u.takeWhile (isRadixDigit r)
  if ds.isEmpty then none else some (radixVal r ds)

/-- `Number.parseInt(s, r)`: trim, optional sign, digit prefix. -/
def jsParseInt (r : Nat) (s : JStr) : Option Int :=
  match jsTrim s with
  | '-' :: u => (parseIntDigits r u).map (fun m => -(m : Int))
  | '+' :: u => (parseIntDigits r u).map Int.ofNat
  | u => (parseIntDigits r u).map Int.ofNat

/-- Body of the hex-literal regex: `0x[0-9a-fA-F]+` (case-insensitive on the
`x` because of the `/i` flag). -/
def isHexBody (s : JStr) : Bool :=
  match s with
  | '0' :: x :: ds => (x = 'x' || x = 'X') && !ds.isEmpty && ds.all (isRadixDigit 16)
  | _ => false

/-- The regex `/^-?0x[0-9a-fA-F]+$/i` (`allowNeg = true`) or
`/^0x[0-9a-fA-F]+$/i` (`allowNeg = false`), applied to a trimmed string. -/
def isHexLit (allowNeg : Bool) (s : JStr) : Bool :=
  match s with
  | '-' :: rest => allowNeg && isHexBody rest
  | rest => isHexBody rest

/-- Base64 alphabet test `[A-Za-z0-9+/]`. -/
def isB64Char (c : Char) : Bool :=
  isDigitCh c || ('a' ≤ c && c ≤ 'z') || ('A' ≤ c && c ≤ 'Z') || c = '+' || c = '/'

/-- The regex `^[A-Za-z0-9+/]*={0,2}$`. -/
def b64Shape (s : JStr) : Bool :=
  let rest := s.drop (s.takeWhile isB64Char).length
  rest.all (fun c => c = '=') && rest.length ≤ 2

/-- Value of one base64 alphabet character. -/
def b64CharVal (c : Char) : Nat :=
  if 'A' ≤ c && c ≤ 'Z' then c.toNat - 65
  else if 'a' ≤ c && c ≤ 'z' then c.toNat - 97 + 26
  else if isDigitCh c then c.toNat - 48 + 52
  else if c = '+' then 62
  else if c = '/' then 63
  else 0

/-- `Buffer.from(s, 'base64')` for strings of the shape checked above:
decode quartets, honouring `=` padding on the final quartet. -/
def b64Decode : JStr → List Nat
  | c1 :: c2 :: c3 :: c4 :: rest =>
    let v1 := b64CharVal c1
    let v2 := b64CharVal c2
    let b1 := v1 * 4 + v2 / 16
    if c3 = '=' then [b1]
    else
      let v3 := b64CharVal c3
      let b2 := (v2 % 16) * 16 + v3 / 4
      if c4 = '=' then [b1, b2]
      else [b1, b2, (v3 % 4) * 64 + b64CharVal c4] ++ b64Decode rest
  | _ => []

/-- The dotted-quad regex `^(\d{1,3})\.(\d{1,3})\.(\d{1,3})\.(\d{1,3})$`:
exactly four groups of one to three digits. -/
def ipv4Groups (s : JStr) : Option (List JStr) :=
  match splitOnDot s with
  | [a, b, c, d] =>
    if [a, b, c, d].all (fun g => !g.isEmpty && g.length ≤ 3 && g.all isDigitCh) then
      some [a, b, c, d]
    else none
  | _ => none

/-- `validateAndConvertVarbind` from `src/oidUtils.ts`: normalise and
validate the OID, stringify the value (`value?.toString() ?? ''`), then
convert it according to the varbind's type tag, throwing on conversion or
range failures. -/
def validateAndConvertVarbind (vb : Varbind) : Except ConvErr Varbind :=
  let oid := trimOid vb.oid
  if !isValidSnmpOid oid then .error (.invalidOid vb.oid)
  else
    let raw := rawOf vb.value
    if vb.type = ObjTy.Boolean then
      let r := jsTrim (jsToLower raw)
      if r = "true".data || r = "1".data || r = "on".data || r = "yes".data then
        .ok ⟨oid, vb.type, .jbool true⟩
      else if r = "false".data || r = "0".data || r = "off".data || r = "no".data then
        .ok ⟨oid, vb.type, .jbool false⟩
      else .error (.cannotConvertBoolean r)
    else if vb.type = ObjTy.Integer then
      let isHex := isHexLit true (jsTrim raw)
      match if isHex then jsParseInt 16 raw else jsParseInt 10 raw with
      | none => .error (.cannotConvertInteger raw)
      | some n =>
        if !isHex && !(intToDec n = jsTrim raw) then .error (.cannotConvertInteger raw)
        else if n < INT32_MIN || n > INT32_MAX then .error (.integerOutOfRange n)
        else .ok ⟨oid, vb.type, .jnum n⟩
    else if vb.type = ObjTy.BitString || vb.type = ObjTy.OctetString then
      .ok ⟨oid, vb.type, .jstr raw⟩
    else if vb.type = ObjTy.Opaque then
      let padded := padEnd (((jsTrim raw).length + 3) / 4 * 4) '=' (jsTrim raw)
      if !b64Shape padded then .error (.cannotConvertOpaque raw)
      else .ok ⟨oid, vb.type, .jbuffer (b64Decode padded)⟩
    else if vb.type = ObjTy.Null then
      .ok ⟨oid, vb.type, .jnull⟩
    else if vb.type = ObjTy.OID then
      let trimmed := trimOid raw
      if !isValidSnmpOid trimmed then .error (.cannotConvertOid raw)
      else .ok ⟨oid, vb.type, .jstr trimmed⟩
    else if vb.type = ObjTy.IpAddress then
      match ipv4Groups raw with
      | none => .error (.cannotConvertIpAddress raw)
      | some groups =>
        if groups.any (fun g => 255 < radixVal 10 g) then .error (.ipOctetOutOfRange raw)
        else .ok ⟨oid, vb.type, .jstr raw⟩
    else if vb.type = ObjTy.Counter || vb.type = ObjTy.Gauge || vb.type = ObjTy.TimeTicks then
      let isHex := isHexLit false (jsTrim raw)
      match if isHex then jsParseInt 16 raw else jsParseInt 10 raw with
      | none => .error (.cannotConvertUint32 raw)
      | some n =>
        if !isHex && !(intToDec n = jsTrim raw) then .error (.cannotConvertUint32 raw)
        else if n < 0 || n > UINT32_MAX then .error (.uint32OutOfRange n vb.type)
        else .ok ⟨oid, vb.type, .jnum n⟩
    else if vb.type = ObjTy.Counter64 then
      match jsBigIntOfString raw with
      | none => .error (.cannotConvertCounter64 raw)
      | some n =>
        if n < 0 || n > UINT64_MAX then .error (.counter64OutOfRange n)
        else .ok ⟨oid, vb.type, .jbuffer (hexToBytes (padStart 16 '0' (natToHex n.toNat)))⟩
    else .error (.unsupportedObjectType vb.type)

/-- `validateVarbinds` from `src/oidUtils.ts`: validate each varbind,
wrapping any failure with its index. -/
def validateVarbinds (vbs : List Varbind) : Except ConvErr (List Varbind) :=
  vbs.enum.mapM (fun p => (validateAndConvertVarbind p.2).mapError (.varbindAtIndex p.1))

example : validateAndConvertVarbind ⟨".1.3.6.1".data, ObjTy.Null, .jnull⟩ =
    .ok ⟨"1.3.6.1".data, ObjTy.Null, .jnull⟩ := rfl
example : validateAndConvertVarbind ⟨"not.an.oid".data, ObjTy.Null, .jnull⟩ =
    .error (.invalidOid "not.an.oid".data) := rfl
example : validateAndConvertVarbind ⟨"1.3.6.1".data, ObjTy.Boolean, .jstr "TRUE".data⟩ =
    .ok ⟨"1.3.6.1".data, ObjTy.Boolean, .jbool true⟩ := rfl
example : validateAndConvertVarbind ⟨"1.3.6.1".data, ObjTy.Boolean, .jstr "off".data⟩ =
    .ok ⟨"1.3.6.1".data, ObjTy.Boolean, .jbool false⟩ := rfl
example : validateAndConvertVarbind ⟨"1.3.6.1".data, ObjTy.Boolean, .jstr "maybe".data⟩ =
    .error (.cannotConvertBoolean "maybe".data) := rfl
example : validateAndConvertVarbind ⟨"1.3.6.1".data, ObjTy.Integer, .jstr "42".data⟩ =
    .ok ⟨"1.3.6.1".data, ObjTy.Integer, .jnum 42⟩ := rfl
example : validateAndConvertVarbind ⟨"1.3.6.1".data, ObjTy.Integer, .jstr "-1".data⟩ =
    .ok ⟨"1.3.6.1".data, ObjTy.Integer, .jnum (-1)⟩ := rfl
example : validateAndConvertVarbind ⟨"1.3.6.1".data, ObjTy.Integer, .jstr "0xFF".data⟩ =
    .ok ⟨"1.3.6.1".data, ObjTy.Integer, .jnum 255⟩ := rfl
example : validateAndConvertVarbind ⟨"1.3.6.1".data, ObjTy.Integer, .jnum 2001⟩ =
    .ok ⟨"1.3.6.1".data, ObjTy.Integer, .jnum 2001⟩ := rfl
example : validateAndConvertVarbind ⟨"1.3.6.1".data, ObjTy.Integer, .jstr "3.14".data⟩ =
    .error (.cannotConvertInteger "3.14".data) := rfl
example : validateAndConvertVarbind ⟨"1.3.6.1".data, ObjTy.Integer, .jstr "2147483648".data⟩ =
    .error (.integerOutOfRange 2147483648) := rfl
example : validateAndConvertVarbind ⟨"1.3.6.1".data, ObjTy.OID, .jstr ".1.3.6.1".data⟩ =
    .ok ⟨"1.3.6.1".data, ObjTy.OID, .jstr "1.3.6.1".data⟩ := rfl
example : validateAndConvertVarbind ⟨"1.3.6.1".data, ObjTy.IpAddress, .jstr "192.168.1.1".data⟩ =
    .ok ⟨"1.3.6.1".data, ObjTy.IpAddress, .jstr "192.168.1.1".data⟩ := rfl
example : validateAndConvertVarbind ⟨"1.3.6.1".data, ObjTy.IpAddress, .jstr "192.168.1.256".data⟩ =
    .error (.ipOctetOutOfRange "192.168.1.256".data) := rfl
example : validateAndConvertVarbind ⟨"1.3.6.1".data, ObjTy.Counter, .jstr "100".data⟩ =
    .ok ⟨"1.3.6.1".data, ObjTy.Counter, .jnum 100⟩ := rfl
example : validateAndConvertVarbind ⟨"1.3.6.1".data, ObjTy.Gauge, .jstr "-1".data⟩ =
    .error (.uint32OutOfRange (-1) ObjTy.Gauge) := rfl
example : validateAndConvertVarbind ⟨"1.3.6.1".data, ObjTy.TimeTicks, .jstr "4294967296".data⟩ =
    .error (.uint32OutOfRange 4294967296 ObjTy.TimeTicks) := rfl
example : validateAndConvertVarbind ⟨"1.3.6.1".data, ObjTy.Counter64, .jstr "1".data⟩ =
    .ok ⟨"1.3.6.1".data, ObjTy.Counter64, .jbuffer [0, 0, 0, 0, 0, 0, 0, 1]⟩ := rfl
example : validateAndConvertVarbind ⟨"1.3.6.1".data, ObjTy.Counter64, .jstr "-1".data⟩ =
    .error (.counter64OutOfRange (-1)) := rfl
example : validateAndConvertVarbind ⟨"1.3.6.1".data, ObjTy.Counter64, .jstr "abc".data⟩ =
    .error (.cannotConvertCounter64 "abc".data) := rfl
example : validateAndConvertVarbind ⟨"1.3.6.1".data, 999, .jstr "x".data⟩ =
    .error (.unsupportedObjectType 999) := rfl
example : validateVarbinds
    [⟨"1.3.6.1".data, ObjTy.Integer, .jstr "5".data⟩,
     ⟨"bad-oid".data, ObjTy.Integer, .jstr "5".data⟩] =
    .error (.varbindAtIndex 1 (.invalidOid "bad-oid".data)) := rfl

/-! ## JS `Map` / `Set` models -/

/-- `Map.prototype.get`. -/
def lookupA {α : Type} (m : List (JStr × α)) (k : JStr) : Option α :=
  match m with
  | [] => none
  | (k2, v) :: rest => if k2 = k then some v else lookupA rest k

/-- `Map.prototype.set`: replace the binding in place, or append a new one. -/
def insertA {α : Type} (m : List (JStr × α)) (k : JStr) (v : α) : List (JStr × α) :=
  match m with
  | [] => [(k, v)]
  | (k2, v2) :: rest => if k2 = k then (k, v) :: rest else (k2, v2) :: insertA rest k v

/-- `Map.prototype.delete`. -/
def eraseA {α : Type} (m : List (JStr × α)) (k : JStr) : List (JStr × α) :=
  match m with
  | [] => []
  | (k2, v2) :: rest => if k2 = k then rest else (k2, v2) :: eraseA rest k

/-- `Map.prototype.keys`. -/
def keysA {α : Type} (m : List (JStr × α)) : List JStr := m.map Prod.fst

/-- `Set.prototype.add` (sets are member lists in insertion order). -/
def setAdd (s : List JStr) (x : JStr) : List JStr := if x ∈ s then s else s ++ [x]

/-- `Set.prototype.delete`. -/
def setDel (s : List JStr) (x : JStr) : List JStr := s.filter (fun y => !(y = x))

theorem lookupA_insertA_self {α : Type} (m : List (JStr × α)) (k : JStr) (v : α) :
    lookupA (insertA m k v) k = some v := by
  induction m with
  | nil => simp [insertA, lookupA]
  | cons e rest ih =>
    obtain ⟨k2, v2⟩ := e
    by_cases h : k2 = k
    · simp [insertA, h, lookupA]
    · simp [insertA, h, lookupA, ih]

theorem lookupA_insertA_ne {α : Type} {m : List (JStr × α)} {k k2 : JStr} {v : α}
    (h : k2 ≠ k) : lookupA (insertA m k v) k2 = lookupA m k2 := by
  induction m with
  | nil => simp [insertA, lookupA, Ne.symm h]
  | cons e rest ih =>
    obtain ⟨k3, v3⟩ := e
    by_cases h3 : k3 = k
    · subst h3
      simp [insertA, lookupA, Ne.symm h]
    · simp [insertA, h3, lookupA, ih]

theorem lookupA_eraseA_ne {α : Type} {m : List (JStr × α)} {k k2 : JStr}
    (h : k2 ≠ k) : lookupA (eraseA m k) k2 = lookupA m k2 := by
  induction m with
  | nil => simp [eraseA, lookupA]
  | cons e rest ih =>
    obtain ⟨k3, v3⟩ := e
    by_cases h3 : k3 = k
    · subst h3
      simp [eraseA, lookupA, Ne.symm h]
    · simp [eraseA, h3, lookupA, ih]

theorem mem_keysA_iff_lookupA {α : Type} {m : List (JStr × α)} {k : JStr} :
    k ∈ keysA m ↔ (lookupA m k).isSome = true := by
  induction m with
  | nil => simp [keysA, lookupA]
  | cons e rest ih =>
    obtain ⟨k2, v2⟩ := e
    by_cases h : k2 = k
    · subst h
      constructor
      · intro _
        rw [lookupA, if_pos rfl]
        rfl
      · intro _
        exact List.mem_cons_self _ _
    · simp only [keysA, List.map_cons, List.mem_cons, lookupA, if_neg h]
      rw [← ih]
      constructor
      · rintro (rfl | hh)
        · exact absurd rfl h
        · exact hh
      · exact Or.inr

theorem lookupA_eraseA_self {α : Type} {m : List (JStr × α)} {k : JStr}
    (hnd : (keysA m).Nodup) : lookupA (eraseA m k) k = none := by
  induction m with
  | nil => simp [eraseA, lookupA]
  | cons e rest ih =>
    obtain ⟨k2, v2⟩ := e
    simp only [keysA, List.map_cons, List.nodup_cons] at hnd
    by_cases h : k2 = k
    · subst h
      have he : eraseA ((k2, v2) :: rest) k2 = rest := by
        rw [eraseA, if_pos rfl]
      rw [he]
      cases hl : lookupA rest k2 with
      | none => rfl
      | some v =>
        exact absurd (mem_keysA_iff_lookupA.mpr (by simp [hl])) hnd.1
    · simp [eraseA, h, lookupA, ih hnd.2]

theorem mem_keysA_insertA {α : Type} {m : List (JStr × α)} {k k2 : JStr} {v : α} :
    k2 ∈ keysA (insertA m k v) ↔ k2 ∈ keysA m ∨ k2 = k := by
  induction m with
  | nil => simp [insertA, keysA]
  | cons e rest ih =>
    obtain ⟨k3, v3⟩ := e
    by_cases h3 : k3 = k
    · subst h3
      rw [insertA, if_pos rfl]
      simp only [keysA, List.map_cons, List.mem_cons]
      tauto
    · simp only [insertA, if_neg h3, keysA, List.map_cons, List.mem_cons]
      rw [show keysA (insertA rest k v) = List.map Prod.fst (insertA rest k v) from rfl] at ih
      rw [show keysA rest = List.map Prod.fst rest from rfl] at ih
      tauto

theorem mem_keysA_eraseA {α : Type} {m : List (JStr × α)} {k k2 : JStr}
    (h : k2 ∈ keysA (eraseA m k)) : k2 ∈ keysA m := by
  induction m with
  | nil => simpa [eraseA] using h
  | cons e rest ih =>
    obtain ⟨k3, v3⟩ := e
    by_cases h3 : k3 = k
    · subst h3
      simp only [eraseA, if_pos rfl] at h
      simp only [keysA, List.map_cons, List.mem_cons]
      exact Or.inr h
    · simp only [eraseA, if_neg h3, keysA, List.map_cons, List.mem_cons] at h ⊢
      rcases h with h | h
      · exact Or.inl h
      · exact Or.inr (ih h)

theorem nodup_keysA_insertA {α : Type} {m : List (JStr × α)} {k : JStr} {v : α}
    (hnd : (keysA m).Nodup) : (keysA (insertA m k v)).Nodup := by
  induction m with
  | nil => exact List.nodup_singleton k
  | cons e rest ih =>
    obtain ⟨k3, v3⟩ := e
    simp only [keysA, List.map_cons, List.nodup_cons] at hnd
    by_cases h3 : k3 = k
    · subst h3
      rw [insertA, if_pos rfl]
      simp only [keysA, List.map_cons, List.nodup_cons]
      exact hnd
    · simp only [insertA, if_neg h3, keysA, List.map_cons, List.nodup_cons]
      refine ⟨?_, ih hnd.2⟩
      intro hmem
      rcases mem_keysA_insertA.mp hmem with h | h
      · exact hnd.1 h
      · exact h3 h

theorem nodup_keysA_eraseA {α : Type} {m : List (JStr × α)} {k : JStr}
    (hnd : (keysA m).Nodup) : (keysA (eraseA m k)).Nodup := by
  induction m with
  | nil => exact List.nodup_nil
  | cons e rest ih =>
    obtain ⟨k3, v3⟩ := e
    simp only [keysA, List.map_cons, List.nodup_cons] at hnd
    by_cases h3 : k3 = k
    · subst h3
      simpa [eraseA] using hnd.2
    · simp only [eraseA, if_neg h3, keysA, List.map_cons, List.nodup_cons]
      exact ⟨fun hmem => hnd.1 (mem_keysA_eraseA hmem), ih hnd.2⟩

theorem not_mem_keysA_eraseA {α : Type} {m : List (JStr × α)} {k : JStr}
    (hnd : (keysA m).Nodup) : k ∉ keysA (eraseA m k) := by
  intro hmem
  have := mem_keysA_iff_lookupA.mp hmem
  rw [lookupA_eraseA_self hnd] at this
  simp at this

theorem mem_setAdd {s : List JStr} {x y : JStr} :
    y ∈ setAdd s x ↔ y ∈ s ∨ y = x := by
  unfold setAdd
  by_cases h : x ∈ s
  · simp only [if_pos h]
    constructor
    · exact Or.inl
    · rintro (hy | rfl)
      · exact hy
      · exact h
  · simp [if_neg h]

theorem mem_setDel {s : List JStr} {x y : JStr} :
    y ∈ setDel s x ↔ y ∈ s ∧ y ≠ x := by
  simp [setDel]

/-! ## The feedback/OID tracker (`src/oidtracker.js`) -/

/-- `FeedbackOidTracker`: bidirectional mapping between OIDs and feedback
ids — `oidToFeedbacks : Map<string, Set<string>>` and
`feedbackToOid : Map<string, string>`. -/
structure FeedbackOidTracker where
  oidToFeedbacks : List (JStr × List JStr)
  feedbackToOid : List (JStr × JStr)
deriving DecidableEq, Repr

/-- A freshly constructed tracker (both maps empty). -/
def emptyTracker : FeedbackOidTracker := ⟨[], []⟩

/-- `removeFeedback(feedbackId)`: look up the watched OID (the `if (oldOid)`
truthiness test also rejects an empty string), delete the id from that OID's
watcher set, drop the set entirely if it became empty, then delete the
forward mapping. No-op for an unknown id. -/
def FeedbackOidTracker.removeFeedback (t : FeedbackOidTracker) (feedbackId : JStr) :
    FeedbackOidTracker :=
  match lookupA t.feedbackToOid feedbackId with
  | none => t
  | some oldOid =>
    if oldOid.isEmpty then t
    else
      let t1 :=
        match lookupA t.oidToFeedbacks oldOid with
        | none => t
        | some feedbackSet =>
          let s2 := setDel feedbackSet feedbackId
          if s2.length = 0 then
            { t with oidToFeedbacks := eraseA t.oidToFeedbacks oldOid }
          else
            { t with oidToFeedbacks := insertA t.oidToFeedbacks oldOid s2 }
      { t1 with feedbackToOid := eraseA t1.feedbackToOid feedbackId }

/-- `addFeedback(feedbackId, oid)`: first remove any existing mapping for the
id, then trim and validate the OID — throwing `Invalid OID` (the `some`
component of the result, carrying the trimmed OID) leaves the removal in
place — and finally insert into both maps. -/
def FeedbackOidTracker.addFeedback (t : FeedbackOidTracker) (feedbackId oid : JStr) :
    FeedbackOidTracker × Option JStr :=
  let t := t.removeFeedback feedbackId
  let oid := trimOid oid
  if !isValidSnmpOid oid || oid.length == 0 then (t, some oid)
  else
    let fbSet := (lookupA t.oidToFeedbacks oid).getD []
    let t := { t with oidToFeedbacks := insertA t.oidToFeedbacks oid (setAdd fbSet feedbackId) }
    ({ t with feedbackToOid := insertA t.feedbackToOid feedbackId oid }, none)

/-- `updateFeedback(feedbackId, newOid)` — delegates to `addFeedback`. -/
def FeedbackOidTracker.updateFeedback (t : FeedbackOidTracker) (feedbackId newOid : JStr) :
    FeedbackOidTracker × Option JStr :=
  t.addFeedback feedbackId newOid

/-- `getFeedbacksForOid(oid)`: the watcher set, or an empty set. -/
def FeedbackOidTracker.getFeedbacksForOid (t : FeedbackOidTracker) (oid : JStr) : List JStr :=
  (lookupA t.oidToFeedbacks oid).getD []

/-- `getOidForFeedback(feedbackId)`. -/
def FeedbackOidTracker.getOidForFeedback (t : FeedbackOidTracker) (feedbackId : JStr) :
    Option JStr :=
  lookupA t.feedbackToOid feedbackId

/-- `hasWatchersForOid(oid)`: `feedbacks ? feedbacks.size > 0 : false`. -/
def FeedbackOidTracker.hasWatchersForOid (t : FeedbackOidTracker) (oid : JStr) : Bool :=
  match lookupA t.oidToFeedbacks oid with
  | some feedbacks => 0 < feedbacks.length
  | none => false

/-- `getAllWatchedOids()`. -/
def FeedbackOidTracker.getAllWatchedOids (t : FeedbackOidTracker) : List JStr :=
  keysA t.oidToFeedbacks

/-- `getFeedbackCount()`. -/
def FeedbackOidTracker.getFeedbackCount (t : FeedbackOidTracker) : Nat :=
  t.feedbackToOid.length

/-- `getFeedbackIdsForOid(oid)`: the watcher set as an array. -/
def FeedbackOidTracker.getFeedbackIdsForOid (t : FeedbackOidTracker) (oid : JStr) : List JStr :=
  match lookupA t.oidToFeedbacks oid with
  | some feedbackSet => feedbackSet
  | none => []

/-- `clear()`. -/
def FeedbackOidTracker.clear (_t : FeedbackOidTracker) : FeedbackOidTracker :=
  emptyTracker

/-- One call on the tracker, for reasoning about arbitrary call sequences. -/
inductive TrackerOp where
  | add (id oid : JStr)
  | update (id oid : JStr)
  | remove (id : JStr)
  | clearAll
deriving DecidableEq, Repr

/-- Apply one call (the state after `addFeedback`, including a failed one,
is the first component of its result). -/
def applyOp (t : FeedbackOidTracker) : TrackerOp → FeedbackOidTracker
  | .add id oid => (t.addFeedback id oid).1
  | .update id oid => (t.updateFeedback id oid).1
  | .remove id => t.removeFeedback id
  | .clearAll => t.clear

/-- Run a sequence of calls on a fresh tracker. -/
def runOps (ops : List TrackerOp) : FeedbackOidTracker :=
  ops.foldl applyOp emptyTracker

example :
    (runOps [.add "fb1".data "1.3.6.1.2.1".data]).getOidForFeedback "fb1".data =
      some "1.3.6.1.2.1".data := rfl
example :
    "fb1".data ∈ (runOps [.add "fb1".data ".1.3.6.1.2.1".data]).getFeedbacksForOid
      "1.3.6.1.2.1".data := by decide
example :
    (runOps [.add "fb1".data "1.3.6.1.2.1".data,
      .add "fb1".data "1.3.6.1.2.2".data]).getAllWatchedOids = ["1.3.6.1.2.2".data] := rfl
example :
    (emptyTracker.addFeedback "fb1".data "not-an-oid".data).2.isSome = true := rfl
example :
    (runOps [.add "fb1".data "1.3.6.1.2.1".data,
      .remove "fb1".data]).hasWatchersForOid "1.3.6.1.2.1".data = false := rfl
example :
    (runOps [.add "fb1".data "1.3.6.1.2.1".data, .add "fb2".data "1.3.6.1.2.1".data,
      .remove "fb1".data]).getFeedbackIdsForOid "1.3.6.1.2.1".data = ["fb2".data] := rfl
example :
    (runOps [.add "fb1".data "1.3.6.1.2.1".data,
      .add "fb1".data "1.3.6.1.2.2".data]).getFeedbackCount = 1 := rfl

/-- Well-formedness of a tracker state: both maps have duplicate-free keys,
stored OIDs are valid, the forward and inverse maps agree, and no watcher
set is empty. -/
structure TrackerWF (t : FeedbackOidTracker) : Prop where
  ndF : (keysA t.feedbackToOid).Nodup
  ndO : (keysA t.oidToFeedbacks).Nodup
  validF : ∀ {id oid}, lookupA t.feedbackToOid id = some oid → isValidSnmpOid oid = true
  fwd : ∀ {id oid}, lookupA t.feedbackToOid id = some oid →
    ∃ s, lookupA t.oidToFeedbacks oid = some s ∧ id ∈ s
  bwd : ∀ {oid s}, lookupA t.oidToFeedbacks oid = some s →
    ∀ {id}, id ∈ s → lookupA t.feedbackToOid id = some oid
  nonempty : ∀ {oid s}, lookupA t.oidToFeedbacks oid = some s → s ≠ []

theorem emptyTracker_WF : TrackerWF emptyTracker := by
  constructor
  · exact List.nodup_nil
  · exact List.nodup_nil
  · intro id oid h; cases h
  · intro id oid h; cases h
  · intro oid s h; cases h
  · intro oid s h; cases h

theorem setAdd_ne_nil (s : List JStr) (x : JStr) : setAdd s x ≠ [] := by
  unfold setAdd
  by_cases h : x ∈ s
  · rw [if_pos h]
    intro hs
    rw [hs] at h
    cases h
  · rw [if_neg h]
    exact List.append_ne_nil_of_right_ne_nil _ (by simp)

/-- A valid OID string is non-empty (so the `if (oldOid)` truthiness test
passes for any OID stored under the well-formedness invariant). -/
theorem isValidSnmpOid_ne_nil {s : JStr} (h : isValidSnmpOid s = true) :
    s.isEmpty = false := by
  cases s with
  | nil => exact absurd h (by decide)
  | cons a t => rfl

/-- `removeFeedback` on an id that is not being tracked is the identity. -/
theorem removeFeedback_not_watching {t : FeedbackOidTracker} {id : JStr}
    (hlk : lookupA t.feedbackToOid id = none) : t.removeFeedback id = t := by
  unfold FeedbackOidTracker.removeFeedback
  rw [hlk]

/-- Characterisation of `removeFeedback` on a watched id in a well-formed
state. -/
theorem removeFeedback_watching {t : FeedbackOidTracker} (hwf : TrackerWF t)
    {id w : JStr} (hlk : lookupA t.feedbackToOid id = some w) :
    ∃ s, lookupA t.oidToFeedbacks w = some s ∧ id ∈ s ∧
      t.removeFeedback id =
        { oidToFeedbacks :=
            if setDel s id = [] then eraseA t.oidToFeedbacks w
            else insertA t.oidToFeedbacks w (setDel s id),
          feedbackToOid := eraseA t.feedbackToOid id } := by
  obtain ⟨s, hs, hmem⟩ := hwf.fwd hlk
  refine ⟨s, hs, hmem, ?_⟩
  unfold FeedbackOidTracker.removeFeedback
  rw [hlk]
  simp only [isValidSnmpOid_ne_nil (hwf.validF hlk), Bool.false_eq_true, if_false, hs]
  by_cases hd : setDel s id = []
  · rw [if_pos hd, if_pos (by rw [hd]; rfl)]
  · rw [if_neg hd, if_neg (fun h => hd (List.length_eq_zero.mp h))]

/-- After `removeFeedback`, the id is gone from both maps. -/
theorem removeFeedback_gone {t : FeedbackOidTracker} (hwf : TrackerWF t) (id : JStr) :
    lookupA (t.removeFeedback id).feedbackToOid id = none ∧
      ∀ {oid s}, lookupA (t.removeFeedback id).oidToFeedbacks oid = some s → id ∉ s := by
  cases hlk : lookupA t.feedbackToOid id with
  | none =>
    rw [removeFeedback_not_watching hlk]
    refine ⟨hlk, ?_⟩
    intro oid s hos hmem
    rw [hwf.bwd hos hmem] at hlk
    cases hlk
  | some w =>
    obtain ⟨s, hs, hmem, heq⟩ := removeFeedback_watching hwf hlk
    rw [heq]
    refine ⟨lookupA_eraseA_self hwf.ndF, ?_⟩
    intro oid s2 hos hmem2
    by_cases how : oid = w
    · subst how
      by_cases hd : setDel s id = []
      · rw [if_pos hd] at hos
        rw [lookupA_eraseA_self hwf.ndO] at hos
        cases hos
      · rw [if_neg hd] at hos
        rw [lookupA_insertA_self] at hos
        obtain rfl := Option.some.inj hos
        exact (mem_setDel.mp hmem2).2 rfl
    · have hos2 : lookupA t.oidToFeedbacks oid = some s2 := by
        by_cases hd : setDel s id = []
        · rw [if_pos hd] at hos
          rwa [lookupA_eraseA_ne how] at hos
        · rw [if_neg hd] at hos
          rwa [lookupA_insertA_ne how] at hos
      have := hwf.bwd hos2 hmem2
      rw [this] at hlk
      exact how (Option.some.inj hlk)

/-- `removeFeedback` preserves well-formedness. -/
theorem removeFeedback_WF {t : FeedbackOidTracker} (hwf : TrackerWF t) (id : JStr) :
    TrackerWF (t.removeFeedback id) := by
  cases hlk : lookupA t.feedbackToOid id with
  | none => rw [removeFeedback_not_watching hlk]; exact hwf
  | some w =>
    obtain ⟨s, hs, hmem, heq⟩ := removeFeedback_watching hwf hlk
    rw [heq]
    by_cases hd : setDel s id = []
    · rw [if_pos hd]
      constructor
      · exact nodup_keysA_eraseA hwf.ndF
      · exact nodup_keysA_eraseA hwf.ndO
      · intro id2 o h2
        by_cases hi : id2 = id
        · subst hi; rw [lookupA_eraseA_self hwf.ndF] at h2; cases h2
        · rw [lookupA_eraseA_ne hi] at h2; exact hwf.validF h2
      · intro id2 o h2
        by_cases hi : id2 = id
        · subst hi; rw [lookupA_eraseA_self hwf.ndF] at h2; cases h2
        · rw [lookupA_eraseA_ne hi] at h2
          obtain ⟨s0, hs0, hmem0⟩ := hwf.fwd h2
          by_cases how : o = w
          · subst how
            rw [hs] at hs0
            obtain rfl := Option.some.inj hs0
            have : id2 ∈ setDel s id := mem_setDel.mpr ⟨hmem0, hi⟩
            rw [hd] at this
            cases this
          · exact ⟨s0, by rwa [lookupA_eraseA_ne how], hmem0⟩
      · intro o s2 h2 id2 hmem2
        by_cases how : o = w
        · subst how; rw [lookupA_eraseA_self hwf.ndO] at h2; cases h2
        · rw [lookupA_eraseA_ne how] at h2
          have hf := hwf.bwd h2 hmem2
          have hi : id2 ≠ id := by
            intro hii; subst hii
            rw [hf] at hlk
            exact how (Option.some.inj hlk)
          rwa [lookupA_eraseA_ne hi]
      · intro o s2 h2
        by_cases how : o = w
        · subst how; rw [lookupA_eraseA_self hwf.ndO] at h2; cases h2
        · rw [lookupA_eraseA_ne how] at h2; exact hwf.nonempty h2
    · rw [if_neg hd]
      constructor
      · exact nodup_keysA_eraseA hwf.ndF
      · exact nodup_keysA_insertA hwf.ndO
      · intro id2 o h2
        by_cases hi : id2 = id
        · subst hi; rw [lookupA_eraseA_self hwf.ndF] at h2; cases h2
        · rw [lookupA_eraseA_ne hi] at h2; exact hwf.validF h2
      · intro id2 o h2
        by_cases hi : id2 = id
        · subst hi; rw [lookupA_eraseA_self hwf.ndF] at h2; cases h2
        · rw [lookupA_eraseA_ne hi] at h2
          obtain ⟨s0, hs0, hmem0⟩ := hwf.fwd h2
          by_cases how : o = w
          · subst how
            rw [hs] at hs0
            obtain rfl := Option.some.inj hs0
            exact ⟨setDel s id, by rw [lookupA_insertA_self],
              mem_setDel.mpr ⟨hmem0, hi⟩⟩
          · exact ⟨s0, by rwa [lookupA_insertA_ne how], hmem0⟩
      · intro o s2 h2 id2 hmem2
        by_cases how : o = w
        · subst how
          rw [lookupA_insertA_self] at h2
          obtain rfl := Option.some.inj h2
          obtain ⟨hm, hi⟩ := mem_setDel.mp hmem2
          rw [lookupA_eraseA_ne hi]
          exact hwf.bwd hs hm
        · rw [lookupA_insertA_ne how] at h2
          have hf := hwf.bwd h2 hmem2
          have hi : id2 ≠ id := by
            intro hii; subst hii
            rw [hf] at hlk
            exact how (Option.some.inj hlk)
          rwa [lookupA_eraseA_ne hi]
      · intro o s2 h2
        by_cases how : o = w
        · subst how
          rw [lookupA_insertA_self] at h2
          obtain rfl := Option.some.inj h2
          exact hd
        · rw [lookupA_insertA_ne how] at h2; exact hwf.nonempty h2

theorem length_beq_zero_eq_false {l : JStr} (h : l ≠ []) : (l.length == 0) = false := by
  cases l with
  | nil => exact absurd rfl h
  | cons a r => rfl

/-- `addFeedback` on an OID that fails validation after trimming: the prior
watch has already been removed when the error is thrown. -/
theorem addFeedback_invalid {t : FeedbackOidTracker} {id oid : JStr}
    (hv : isValidSnmpOid (trimOid oid) = false) :
    t.addFeedback id oid = (t.removeFeedback id, some (trimOid oid)) := by
  simp only [FeedbackOidTracker.addFeedback, hv, Bool.not_false, Bool.true_or, if_true]

/-- `addFeedback` on a valid OID inserts into both maps after the removal. -/
theorem addFeedback_valid {t : FeedbackOidTracker} {id oid : JStr}
    (hv : isValidSnmpOid (trimOid oid) = true) :
    t.addFeedback id oid =
      ({ oidToFeedbacks := insertA (t.removeFeedback id).oidToFeedbacks (trimOid oid)
           (setAdd ((lookupA (t.removeFeedback id).oidToFeedbacks (trimOid oid)).getD []) id),
         feedbackToOid := insertA (t.removeFeedback id).feedbackToOid id (trimOid oid) },
       none) := by
  have hne : trimOid oid ≠ [] := by
    intro hh; rw [hh] at hv; exact absurd hv (by decide)
  simp only [FeedbackOidTracker.addFeedback, hv, Bool.not_true, Bool.false_or,
    length_beq_zero_eq_false hne, if_false]
  rfl

/-- `addFeedback` preserves well-formedness (also when it throws). -/
theorem addFeedback_WF {t : FeedbackOidTracker} (hwf : TrackerWF t) (id oid : JStr) :
    TrackerWF (t.addFeedback id oid).1 := by
  have hwf2 := removeFeedback_WF hwf id
  obtain ⟨hgoneF, hgoneO⟩ := removeFeedback_gone hwf id
  cases hv : isValidSnmpOid (trimOid oid) with
  | false => rw [addFeedback_invalid hv]; exact hwf2
  | true =>
    rw [addFeedback_valid hv]
    set t2 := t.removeFeedback id with ht2
    set o := trimOid oid with ho
    set fb := (lookupA t2.oidToFeedbacks o).getD [] with hfb
    have hfbs : ∀ {s}, lookupA t2.oidToFeedbacks o = some s → fb = s := by
      intro s hlo
      rw [hfb, hlo]
      rfl
    constructor
    · exact nodup_keysA_insertA hwf2.ndF
    · exact nodup_keysA_insertA hwf2.ndO
    · intro id2 o2 h2
      by_cases hi : id2 = id
      · subst hi
        rw [lookupA_insertA_self] at h2
        obtain rfl := Option.some.inj h2
        exact hv
      · rw [lookupA_insertA_ne hi] at h2
        exact hwf2.validF h2
    · intro id2 o2 h2
      by_cases hi : id2 = id
      · rw [hi] at h2
        rw [lookupA_insertA_self] at h2
        obtain rfl := Option.some.inj h2
        rw [hi]
        exact ⟨setAdd fb id, lookupA_insertA_self _ _ _, mem_setAdd.mpr (Or.inr rfl)⟩
      · rw [lookupA_insertA_ne hi] at h2
        obtain ⟨s0, hs0, hmem0⟩ := hwf2.fwd h2
        by_cases how : o2 = o
        · subst how
          refine ⟨setAdd fb id, lookupA_insertA_self _ _ _, ?_⟩
          rw [hfbs hs0]
          exact mem_setAdd.mpr (Or.inl hmem0)
        · exact ⟨s0, by rwa [lookupA_insertA_ne how], hmem0⟩
    · intro o2 s2 h2 id2 hmem2
      by_cases how : o2 = o
      · subst how
        rw [lookupA_insertA_self] at h2
        obtain rfl := Option.some.inj h2
        rcases mem_setAdd.mp hmem2 with hin | rfl
        · cases hlo : lookupA t2.oidToFeedbacks o with
          | none =>
            rw [hfb, hlo] at hin
            cases hin
          | some s0 =>
            rw [hfbs hlo] at hin
            have hf2 := hwf2.bwd hlo hin
            have hi : id2 ≠ id := by
              intro hii; subst hii
              rw [hf2] at hgoneF
              cases hgoneF
            rwa [lookupA_insertA_ne hi]
        · exact lookupA_insertA_self _ _ _
      · rw [lookupA_insertA_ne how] at h2
        have hf2 := hwf2.bwd h2 hmem2
        have hi : id2 ≠ id := by
          intro hii; subst hii
          rw [hf2] at hgoneF
          cases hgoneF
        rwa [lookupA_insertA_ne hi]
    · intro o2 s2 h2
      by_cases how : o2 = o
      · subst how
        rw [lookupA_insertA_self] at h2
        obtain rfl := Option.some.inj h2
        exact setAdd_ne_nil _ _
      · rw [lookupA_insertA_ne how] at h2
        exact hwf2.nonempty h2

/-- Every tracker call preserves well-formedness. -/
theorem applyOp_WF {t : FeedbackOidTracker} (hwf : TrackerWF t) (op : TrackerOp) :
    TrackerWF (applyOp t op) := by
  cases op with
  | add id oid => exact addFeedback_WF hwf id oid
  | update id oid => exact addFeedback_WF hwf id oid
  | remove id => exact removeFeedback_WF hwf id
  | clearAll => exact emptyTracker_WF

/-- Every state reachable by a sequence of tracker calls is well-formed. -/
theorem runOps_WF (ops : List TrackerOp) : TrackerWF (runOps ops) := by
  suffices h : ∀ (t : FeedbackOidTracker), TrackerWF t → TrackerWF (ops.foldl applyOp t) from
    h emptyTracker emptyTracker_WF
  induction ops with
  | nil => exact fun t ht => ht
  | cons op rest ih =>
    intro t ht
    exact ih _ (applyOp_WF ht op)

/-! ## The value cache and `handleVarbind` (`src/index.ts`) -/

/-- A varbind as delivered to `handleVarbind` from a get/walk response or a
received trap/inform. `type = none` models an absent or `undefined` `type`
property (`'type' in varbind && varbind.type !== undefined`); `hasValue`
models `'value' in varbind`; `varbindErr` is the verdict of net-snmp's
`isVarbindError(varbind)` (a transport-level per-varbind error). -/
structure RecvVarbind where
  oid : JStr
  type : Option Nat
  hasValue : Bool
  value : JSValue
  varbindErr : Bool
deriving DecidableEq, Repr

/-- The parts of the module instance state that `handleVarbind` can touch:
the OID value cache, the pending feedback-id set, the tracker, and whether
the debounced definition update / throttled feedback check have been
triggered. -/
structure CacheState where
  oidValues : List (JStr × RecvVarbind)
  feedbackIdsToCheck : List JStr
  oidTracker : FeedbackOidTracker
  definitionsUpdateScheduled : Bool
  dispatchScheduled : Bool
deriving DecidableEq, Repr

/-- `handleVarbind` from `src/index.ts` (the logging-only `index` argument is
omitted): skip transport-level varbind errors; skip varbinds without `value`
or `type`; skip (do not cache) the absence types `NoSuchObject`,
`EndOfMibView`, `NoSuchInstance`; otherwise upsert the cache under
`varbind.oid` (as received — no trimming or validation), schedule a
definitions update if the key is new, mark every watcher of that OID for
re-checking, and trigger the throttled dispatch if the pending set is
non-empty. -/
def handleVarbind (st : CacheState) (vb : RecvVarbind) : CacheState :=
  if vb.varbindErr then st
  else
    match vb.hasValue, vb.type with
    | true, some t =>
      if t = ObjTy.NoSuchObject || t = ObjTy.EndOfMibView || t = ObjTy.NoSuchInstance then
        st
      else
        let isNew := (lookupA st.oidValues vb.oid).isNone
        let fbSet := (st.oidTracker.getFeedbackIdsForOid vb.oid).foldl setAdd
          st.feedbackIdsToCheck
        { st with
            oidValues := insertA st.oidValues vb.oid vb
            definitionsUpdateScheduled := st.definitionsUpdateScheduled || isNew
            feedbackIdsToCheck := fbSet
            dispatchScheduled := st.dispatchScheduled || 0 < fbSet.length }
    | _, _ => st

/-- `processTrap`: every varbind of the notification's PDU runs through
`handleVarbind`. -/
def processTrap (st : CacheState) (varbinds : List RecvVarbind) : CacheState :=
  varbinds.foldl handleVarbind st

/-- The OID-filtering prelude of `getOid` (the `reduce` over the requested
OIDs): trim each OID, skip invalid ones with a warning, keep the rest in
order. -/
def getOidFilter (oids : List JStr) : List JStr :=
  oids.foldl
    (fun acc oid =>
      let o := trimOid oid
      if !isValidSnmpOid o || o.length == 0 then acc else acc ++ [o])
    []

/-- The validation prelude of `setOid`: `.error` models the synchronously
thrown `Invalid OID` error (carrying the trimmed OID), `.ok` the OID the
varbind is sent with. -/
def setOidValidate (oid : JStr) : Except JStr JStr :=
  let o := trimOid oid
  if !isValidSnmpOid o || o.length == 0 then .error o else .ok o

/-- The validation prelude of `walk`: `none` models the warn-and-return
path — the promise resolves without any walk being performed — and `some o`
proceeds to `session.walk(o, …)`. -/
def walkValidate (oid : JStr) : Option JStr :=
  let o := trimOid oid
  if !isValidSnmpOid o || o.length == 0 then none else some o

/-- The enterprise-OID check shared by `sendTrap` and `sendInform`: a
numeric trap type passes through, a string OID is trimmed and validated,
rejecting the whole call (`.error`, the `Invalid Enterprise OID` rejection)
when invalid. -/
def enterpriseOidValidate (typeOrOid : Sum Nat JStr) : Except JStr (Sum Nat JStr) :=
  match typeOrOid with
  | .inl trapType => .ok (.inl trapType)
  | .inr s =>
    let o := trimOid s
    if !isValidSnmpOid o then .error o else .ok (.inr o)

example : getOidFilter ["1.3.6.1.1".data, "bad-oid".data] = ["1.3.6.1.1".data] := rfl
example : getOidFilter ["not-valid".data] = [] := rfl
example : setOidValidate ".1.3.6.1.1".data = .ok "1.3.6.1.1".data := rfl
example : setOidValidate "not-an-oid".data = .error "not-an-oid".data := rfl
example : walkValidate "bad-oid".data = none := rfl
example : walkValidate "1.3.6.1".data = some "1.3.6.1".data := rfl
example : enterpriseOidValidate (.inr "bad".data) = .error "bad".data := rfl

/-! ## Poll groups

The repository sources provided here contain the poll-group API only in its
tests (`src/oidtracker.test.ts`) and callers (the `getOID` action's
subscribe callback and the feedback unsubscribe callback); the tracker file
implementing it is missing. The structure and operations below are
modelled from the spec. -/

/-- Modelled from the spec: the tracker's poll-group structure
(`pollGroup : OID → set<requesterId>`, §4.2) whose implementation file is
missing from the given sources — many-to-many membership between OIDs and
requester ids. -/
structure PollGroupState where
  pollGroup : List (JStr × List JStr)
deriving DecidableEq, Repr

/-- Modelled from the spec: `addToPollGroup(oid, requesterId)` —
"validates+normalizes oid and fails on invalid OID", then adds the
requester to the OID's set. -/
def addToPollGroup (p : PollGroupState) (oid requesterId : JStr) :
    Except JStr PollGroupState :=
  let o := trimOid oid
  if !isValidSnmpOid o then .error o
  else .ok ⟨insertA p.pollGroup o (setAdd ((lookupA p.pollGroup o).getD []) requesterId)⟩

/-- Modelled from the spec: `removeFromPollGroup(oid, requesterId)` —
removes the requester from the OID's set, deleting the set when it becomes
empty ("empty sets are deleted, not left dangling, … likewise for
pollGroup"); safe on an OID that was never added. -/
def removeFromPollGroup (p : PollGroupState) (oid requesterId : JStr) : PollGroupState :=
  let o := trimOid oid
  match lookupA p.pollGroup o with
  | none => p
  | some s =>
    let s2 := setDel s requesterId
    if s2 = [] then ⟨eraseA p.pollGroup o⟩ else ⟨insertA p.pollGroup o s2⟩

/-- Modelled from the spec: `getOidsToPoll` — "an OID is considered active
for polling iff its requester set is non-empty". -/
def getOidsToPoll (p : PollGroupState) : List JStr :=
  (p.pollGroup.filter (fun e => !e.2.isEmpty)).map Prod.fst

/-! ## Derived facts used by several claims -/

/-- Canonical OID key: unchanged by normalisation (no leading dots, no
surrounding whitespace) and valid. -/
def oidCanonical (s : JStr) : Prop := trimOid s = s ∧ isValidSnmpOid s = true

theorem oidCanonical_of_valid {s : JStr} (h : isValidSnmpOid s = true) :
    oidCanonical s :=
  ⟨trimOid_eq_self_of_valid h, h⟩

/-- The `getOid` filtering prelude equals: trim every OID, keep the valid
ones. -/
theorem getOidFilter_eq (oids : List JStr) :
    getOidFilter oids = (oids.map trimOid).filter isValidSnmpOid := by
  have hstep : ∀ (acc : List JStr) (rest : List JStr),
      rest.foldl
        (fun acc oid =>
          let o := trimOid oid
          if !isValidSnmpOid o || o.length == 0 then acc else acc ++ [o]) acc =
        acc ++ (rest.map trimOid).filter isValidSnmpOid := by
    intro acc rest
    induction rest generalizing acc with
    | nil => simp
    | cons oid rest ih =>
      rw [List.foldl_cons, List.map_cons, List.filter_cons]
      cases hv : isValidSnmpOid (trimOid oid) with
      | false =>
        simp only [hv, Bool.not_false, Bool.true_or, if_true, Bool.false_eq_true, if_false]
        exact ih acc
      | true =>
        have hne : trimOid oid ≠ [] := by
          intro hh; rw [hh] at hv; exact absurd hv (by decide)
        simp only [hv, Bool.not_true, Bool.false_or, length_beq_zero_eq_false hne,
          Bool.false_eq_true, if_false, if_true]
        rw [ih (acc ++ [trimOid oid]), List.append_assoc]
        rfl
  have := hstep [] oids
  simpa [getOidFilter] using this

/-! ## The claims -/

/-- C1: For every varbind delivered to the cache-update path (from get,
walk, or a received trap/inform), if the varbind is a transport-level
varbind error or its type tag is `NoSuchObject`, `NoSuchInstance` or
`EndOfMibView`, then `handleVarbind` leaves the whole cache state — the OID
value cache, the pending feedback-id set, and the dispatch/definitions
flags — completely unchanged. -/
theorem claim_C1_handleVarbind_discards_error_and_absence
    (st : CacheState) (vb : RecvVarbind)
    (h : vb.varbindErr = true ∨ vb.type = some ObjTy.NoSuchObject ∨
      vb.type = some ObjTy.NoSuchInstance ∨ vb.type = some ObjTy.EndOfMibView) :
    handleVarbind st vb = st := by
  unfold handleVarbind
  by_cases he : vb.varbindErr = true
  · rw [if_pos he]
  · rw [if_neg he]
    rcases h with h | h | h | h
    · exact absurd h he
    all_goals (rw [h]; cases vb.hasValue <;> simp [ObjTy.NoSuchObject,
      ObjTy.NoSuchInstance, ObjTy.EndOfMibView])

theorem claim_C1_witness :
    handleVarbind ⟨[], [], emptyTracker, false, false⟩
        ⟨"1.3.6.1.1".data, some ObjTy.NoSuchObject, true, .jnull, false⟩ =
      ⟨[], [], emptyTracker, false, false⟩ :=
  claim_C1_handleVarbind_discards_error_and_absence _ _ (Or.inr (Or.inl rfl))

/-- C2 counterexample: `handleVarbind` stores `varbind.oid` exactly as
received, so a trap varbind with OID `".1.3"` puts the non-canonical key
`".1.3"` (leading dot, fails `isValidSnmpOid`, changed by `trimOid`) into
the value cache — the claimed normalisation at the varbind-caching entry
point does not happen. -/
theorem claim_C2_counterexample :
    (handleVarbind ⟨[], [], emptyTracker, false, false⟩
        ⟨".1.3".data, some ObjTy.OctetString, true, .jstr "x".data, false⟩).oidValues =
      [(".1.3".data, ⟨".1.3".data, some ObjTy.OctetString, true, .jstr "x".data, false⟩)] ∧
    isValidSnmpOid ".1.3".data = false ∧
    trimOid ".1.3".data ≠ ".1.3".data := by
  refine ⟨rfl, rfl, ?_⟩
  decide

/-- C2 (amended): Normalisation (trim) followed by validation is applied at
the `getOid`, `setOid` and `walk` entry points and at tracker registration,
and every OID those store or forward is canonical; the varbind-caching path
(`handleVarbind`), however, stores `varbind.oid` exactly as received,
without trimming or validation — any new cache key is the delivered
`varbind.oid` itself. -/
theorem claim_C2_amended_normalization_at_entry_points :
    (∀ oids : List JStr, ∀ o ∈ getOidFilter oids, oidCanonical o) ∧
    (∀ oid o : JStr, setOidValidate oid = .ok o → o = trimOid oid ∧ oidCanonical o) ∧
    (∀ oid o : JStr, walkValidate oid = some o → o = trimOid oid ∧ oidCanonical o) ∧
    (∀ ops : List TrackerOp,
      (∀ o ∈ (runOps ops).getAllWatchedOids, oidCanonical o) ∧
      (∀ id o, (runOps ops).getOidForFeedback id = some o → oidCanonical o)) ∧
    (∀ (st : CacheState) (vb : RecvVarbind),
      ∀ k ∈ keysA (handleVarbind st vb).oidValues, k ∈ keysA st.oidValues ∨ k = vb.oid) := by
  refine ⟨?_, ?_, ?_, ?_, ?_⟩
  · intro oids o ho
    rw [getOidFilter_eq] at ho
    exact oidCanonical_of_valid (List.of_mem_filter ho)
  · intro oid o h
    unfold setOidValidate at h
    by_cases hv : isValidSnmpOid (trimOid oid) = true
    · have hne : trimOid oid ≠ [] := by
        intro hh; rw [hh] at hv; exact absurd hv (by decide)
      rw [if_neg (by simp [hv, length_beq_zero_eq_false hne])] at h
      obtain rfl := Except.ok.inj h
      exact ⟨rfl, oidCanonical_of_valid hv⟩
    · rw [if_pos (by simp [eq_false_of_ne_true hv])] at h
      cases h
  · intro oid o h
    unfold walkValidate at h
    by_cases hv : isValidSnmpOid (trimOid oid) = true
    · have hne : trimOid oid ≠ [] := by
        intro hh; rw [hh] at hv; exact absurd hv (by decide)
      rw [if_neg (by simp [hv, length_beq_zero_eq_false hne])] at h
      obtain rfl := Option.some.inj h
      exact ⟨rfl, oidCanonical_of_valid hv⟩
    · rw [if_pos (by simp [eq_false_of_ne_true hv])] at h
      cases h
  · intro ops
    have hwf := runOps_WF ops
    constructor
    · intro o ho
      have := mem_keysA_iff_lookupA.mp ho
      obtain ⟨s, hs⟩ := Option.isSome_iff_exists.mp this
      obtain ⟨idm, hidm⟩ := List.exists_mem_of_ne_nil s (hwf.nonempty hs)
      exact oidCanonical_of_valid (hwf.validF (hwf.bwd hs hidm))
    · intro id o h
      exact oidCanonical_of_valid (hwf.validF h)
  · intro st vb k hk
    unfold handleVarbind at hk
    by_cases he : vb.varbindErr = true
    · rw [if_pos he] at hk
      exact Or.inl hk
    · rw [if_neg he] at hk
      cases hval : vb.hasValue <;> cases hty : vb.type <;> simp only [hval, hty] at hk
      · exact Or.inl hk
      · exact Or.inl hk
      · exact Or.inl hk
      · split at hk
        · exact Or.inl hk
        · rcases mem_keysA_insertA.mp hk with h | h
          · exact Or.inl h
          · exact Or.inr h

theorem claim_C2_amended_witness :
    setOidValidate ".1.3.6.1.1".data = .ok "1.3.6.1.1".data ∧
      oidCanonical "1.3.6.1.1".data :=
  ⟨rfl, (claim_C2_amended_normalization_at_entry_points.2.1 ".1.3.6.1.1".data
    "1.3.6.1.1".data rfl).2⟩

/-- C3 counterexample: `walk` on an OID that fails validation does not make
the call fail — it logs a warning and resolves without walking (`none` is
the warn-and-return path of `walkValidate`, not a rejection). -/
theorem claim_C3_counterexample :
    walkValidate "bad-oid".data = none := rfl

/-- C3 (amended): a multi-OID `getOid` drops each invalid OID and proceeds
with the remaining valid ones; `setOid` and the enterprise OID of
`sendTrap`/`sendInform` fail the whole call on an invalid OID; `walk`,
however, logs a warning and resolves without performing any walk. -/
theorem claim_C3_amended_invalid_oid_policy (oid : JStr)
    (hv : isValidSnmpOid (trimOid oid) = false) :
    setOidValidate oid = .error (trimOid oid) ∧
    enterpriseOidValidate (.inr oid) = .error (trimOid oid) ∧
    walkValidate oid = none ∧
    (∀ oids : List JStr, getOidFilter oids = (oids.map trimOid).filter isValidSnmpOid) := by
  refine ⟨?_, ?_, ?_, getOidFilter_eq⟩
  · unfold setOidValidate
    rw [if_pos (by simp [hv])]
  · simp [enterpriseOidValidate, hv]
  · unfold walkValidate
    rw [if_pos (by simp [hv])]

theorem claim_C3_amended_witness :
    setOidValidate "bad-oid".data = .error "bad-oid".data ∧
      getOidFilter ["1.3.6.1.1".data, "bad-oid".data] = ["1.3.6.1.1".data] := by
  have h := claim_C3_amended_invalid_oid_policy "bad-oid".data (by decide)
  refine ⟨?_, rfl⟩
  rw [h.1]
  rfl

/-- C7 is a code bug: the source's own unit test expects
`trimOid('  .1.3.6.1  ')` to be `'1.3.6.1'`, but the code strips dots
before trimming whitespace, returning `'.1.3.6.1'`; a second application
then strips the now-leading dot, so `trimOid` is not idempotent. -/
theorem claim_C7_trimOid_not_idempotent :
    trimOid "  .1.3.6.1  ".data = ".1.3.6.1".data ∧
    trimOid (trimOid "  .1.3.6.1  ".data) = "1.3.6.1".data ∧
    trimOid (trimOid "  .1.3.6.1  ".data) ≠ trimOid "  .1.3.6.1  ".data := by
  refine ⟨by decide, by decide, by decide⟩

/-- C8 is a code bug: on an empty byte range `bufferToBigInt` evaluates
`BigInt('0x')`, which is a `SyntaxError` (modelled as `none`) — it does not
return 0, although the source's own unit test expects `0n` for the empty
buffer. -/
theorem claim_C8_bufferToBigInt_empty_throws (bs : List Nat) (start stop : Nat)
    (h : bufSlice bs start stop = []) : bufferToBigInt bs start stop = none := by
  unfold bufferToBigInt
  rw [h]
  rfl

theorem claim_C8_witness : bufferToBigInt [] 0 0 = none :=
  claim_C8_bufferToBigInt_empty_throws [] 0 0 rfl

theorem TrackerWF.mutual {t : FeedbackOidTracker} (hwf : TrackerWF t) (i o : JStr) :
    t.getOidForFeedback i = some o ↔ i ∈ t.getFeedbacksForOid o := by
  unfold FeedbackOidTracker.getOidForFeedback FeedbackOidTracker.getFeedbacksForOid
  constructor
  · intro h
    obtain ⟨s, hs, hm⟩ := hwf.fwd h
    rw [hs]
    exact hm
  · intro h
    cases hlo : lookupA t.oidToFeedbacks o with
    | none => rw [hlo] at h; cases h
    | some s =>
      rw [hlo] at h
      exact hwf.bwd hlo h

theorem TrackerWF.watched_iff {t : FeedbackOidTracker} (hwf : TrackerWF t) (o : JStr) :
    o ∈ t.getAllWatchedOids ↔ t.getFeedbacksForOid o ≠ [] := by
  unfold FeedbackOidTracker.getAllWatchedOids FeedbackOidTracker.getFeedbacksForOid
  constructor
  · intro h
    obtain ⟨s, hs⟩ := Option.isSome_iff_exists.mp (mem_keysA_iff_lookupA.mp h)
    rw [hs]
    exact hwf.nonempty hs
  · intro h
    cases hlo : lookupA t.oidToFeedbacks o with
    | none => rw [hlo] at h; exact absurd rfl h
    | some s => exact mem_keysA_iff_lookupA.mpr (by rw [hlo]; rfl)

/-- After a successful `addFeedback`, the id watches the trimmed OID. -/
theorem addFeedback_watch_self {t : FeedbackOidTracker} {id oid : JStr}
    (hv : isValidSnmpOid (trimOid oid) = true) :
    lookupA (t.addFeedback id oid).1.feedbackToOid id = some (trimOid oid) := by
  rw [addFeedback_valid hv]
  exact lookupA_insertA_self _ _ _

/-- C4: In every state reachable by a sequence of
`addFeedback`/`updateFeedback`/`removeFeedback`/`clear` calls, the forward
map (`feedbackToOid`) and inverse map (`oidToFeedbacks`) stay mutually
consistent, each subscriber id watches at most one OID, and an OID is a key
of the inverse map exactly while its watcher set is non-empty; and after
`addFeedback(id, oidA)` then `addFeedback(id, oidB)`, `getFeedbacksForOid`
of (the trimmed) `oidA` no longer contains `id`, and `getAllWatchedOids`
excludes `oidA` if `id` was its only watcher. -/
theorem claim_C4_tracker_consistency (ops : List TrackerOp) (id oidA oidB : JStr)
    (hA : isValidSnmpOid (trimOid oidA) = true) (hB : isValidSnmpOid (trimOid oidB) = true)
    (hAB : trimOid oidA ≠ trimOid oidB) :
    (∀ i o, (runOps ops).getOidForFeedback i = some o ↔
      i ∈ (runOps ops).getFeedbacksForOid o) ∧
    (∀ i o1 o2, i ∈ (runOps ops).getFeedbacksForOid o1 →
      i ∈ (runOps ops).getFeedbacksForOid o2 → o1 = o2) ∧
    (∀ o, o ∈ (runOps ops).getAllWatchedOids ↔ (runOps ops).getFeedbacksForOid o ≠ []) ∧
    (id ∉ ((((runOps ops).addFeedback id oidA).1.addFeedback id oidB).1).getFeedbacksForOid
        (trimOid oidA) ∧
      (((runOps ops).addFeedback id oidA).1.getFeedbacksForOid (trimOid oidA) = [id] →
        trimOid oidA ∉
          ((((runOps ops).addFeedback id oidA).1.addFeedback id oidB).1).getAllWatchedOids)) := by
  have hwf := runOps_WF ops
  refine ⟨hwf.mutual, ?_, hwf.watched_iff, ?_, ?_⟩
  · intro i o1 o2 h1 h2
    have e1 := (hwf.mutual i o1).mpr h1
    have e2 := (hwf.mutual i o2).mpr h2
    rw [e1] at e2
    exact Option.some.inj e2
  · have hwf1 := addFeedback_WF hwf id oidA
    have hgone1 := removeFeedback_gone hwf1 id
    unfold FeedbackOidTracker.getFeedbacksForOid
    rw [addFeedback_valid hB]
    show id ∉ (lookupA (insertA _ (trimOid oidB) _) (trimOid oidA)).getD []
    rw [lookupA_insertA_ne hAB]
    cases hlo : lookupA (((runOps ops).addFeedback id oidA).1.removeFeedback
        id).oidToFeedbacks (trimOid oidA) with
    | none => intro h; cases h
    | some s =>
      intro h
      exact hgone1.2 hlo h
  · intro hone
    have hwf1 := addFeedback_WF hwf id oidA
    have h1 : lookupA (((runOps ops).addFeedback id oidA).1).feedbackToOid id =
        some (trimOid oidA) := addFeedback_watch_self hA
    obtain ⟨s, hs, hmem, heqrm⟩ := removeFeedback_watching hwf1 h1
    have hsid : s = [id] := by
      unfold FeedbackOidTracker.getFeedbacksForOid at hone
      rw [hs] at hone
      exact hone
    have hdel : setDel s id = [] := by
      rw [hsid]
      simp [setDel]
    unfold FeedbackOidTracker.getAllWatchedOids
    rw [addFeedback_valid hB]
    show trimOid oidA ∉ keysA (insertA _ (trimOid oidB) _)
    intro hmemA
    rcases mem_keysA_insertA.mp hmemA with h | h
    · rw [heqrm] at h
      rw [if_pos hdel] at h
      exact not_mem_keysA_eraseA hwf1.ndO h
    · exact hAB h

theorem claim_C4_witness :
    "fb1".data ∉ ((((runOps []).addFeedback "fb1".data "1.3".data).1.addFeedback
        "fb1".data "1.4".data).1).getFeedbacksForOid (trimOid "1.3".data) :=
  (claim_C4_tracker_consistency [] "fb1".data "1.3".data "1.4".data (by decide) (by decide)
    (by decide)).2.2.2.1

/-- C5 (poll groups, modelled from the spec): membership is
reference-counted — an OID is active for polling iff its requester set is
non-empty; `addToPollGroup` validates and normalises the OID and fails on
an invalid one; adding an OID under two different requester ids and
removing one leaves it in `getOidsToPoll`, removing both removes it. -/
theorem claim_C5_pollGroup_refcounted (oid r1 r2 : JStr)
    (hv : isValidSnmpOid (trimOid oid) = true) (hr : r1 ≠ r2) :
    (∀ (q : PollGroupState) (o : JStr),
      o ∈ getOidsToPoll q ↔ ∃ s, (o, s) ∈ q.pollGroup ∧ s ≠ []) ∧
    (∀ (q : PollGroupState) (s r : JStr), isValidSnmpOid (trimOid s) = false →
      addToPollGroup q s r = .error (trimOid s)) ∧
    addToPollGroup ⟨[]⟩ oid r1 = .ok ⟨[(trimOid oid, [r1])]⟩ ∧
    addToPollGroup ⟨[(trimOid oid, [r1])]⟩ oid r2 = .ok ⟨[(trimOid oid, [r1, r2])]⟩ ∧
    removeFromPollGroup ⟨[(trimOid oid, [r1, r2])]⟩ oid r1 = ⟨[(trimOid oid, [r2])]⟩ ∧
    trimOid oid ∈ getOidsToPoll (⟨[(trimOid oid, [r2])]⟩ : PollGroupState) ∧
    removeFromPollGroup ⟨[(trimOid oid, [r2])]⟩ oid r2 = ⟨[]⟩ ∧
    trimOid oid ∉ getOidsToPoll (⟨[]⟩ : PollGroupState) := by
  have hiff : ∀ (q : PollGroupState) (o : JStr),
      o ∈ getOidsToPoll q ↔ ∃ s, (o, s) ∈ q.pollGroup ∧ s ≠ [] := by
    intro q o
    unfold getOidsToPoll
    constructor
    · intro h
      rw [List.mem_map] at h
      obtain ⟨e, he, heq⟩ := h
      rw [List.mem_filter] at he
      refine ⟨e.2, ?_, ?_⟩
      · rw [← heq, Prod.mk.eta]
        exact he.1
      · intro hnil
        rw [hnil] at he
        simp at he
    · rintro ⟨s, hmem, hne⟩
      refine List.mem_map.mpr ⟨(o, s), List.mem_filter.mpr ⟨hmem, ?_⟩, rfl⟩
      cases s with
      | nil => exact absurd rfl hne
      | cons a t => rfl
  have hl1 : lookupA [(trimOid oid, [r1])] (trimOid oid) = some [r1] := by
    rw [lookupA, if_pos rfl]
  have hl2 : lookupA [(trimOid oid, [r1, r2])] (trimOid oid) = some [r1, r2] := by
    rw [lookupA, if_pos rfl]
  have hl3 : lookupA [(trimOid oid, [r2])] (trimOid oid) = some [r2] := by
    rw [lookupA, if_pos rfl]
  have hsa : setAdd [r1] r2 = [r1, r2] := by
    unfold setAdd
    rw [if_neg (fun h => hr (List.mem_singleton.mp h).symm)]
    rfl
  have hsd1 : setDel [r1, r2] r1 = [r2] := by
    simp [setDel, Ne.symm hr]
  have hsd2 : setDel [r2] r2 = [] := by
    simp [setDel]
  refine ⟨hiff, ?_, ?_, ?_, ?_, ?_, ?_, ?_⟩
  · intro q s r hbad
    simp [addToPollGroup, hbad]
  · simp only [addToPollGroup, hv, Bool.not_true, Bool.false_eq_true, if_false]
    rfl
  · simp only [addToPollGroup, hv, Bool.not_true, Bool.false_eq_true, if_false, hl1,
      Option.getD_some, hsa]
    rw [insertA, if_pos rfl]
  · simp only [removeFromPollGroup, hl2, hsd1]
    rw [if_neg (by simp), insertA, if_pos rfl]
  · exact (hiff _ _).mpr ⟨[r2], List.mem_singleton.mpr rfl, by simp⟩
  · simp only [removeFromPollGroup, hl3, hsd2]
    rw [if_pos trivial, eraseA, if_pos rfl]
  · intro h
    cases h

theorem claim_C5_witness :
    addToPollGroup ⟨[]⟩ "1.3".data "fb1".data = .ok ⟨[(trimOid "1.3".data, ["fb1".data])]⟩ :=
  (claim_C5_pollGroup_refcounted "1.3".data "fb1".data "fb2".data (by decide)
    (by decide)).2.2.1

/-- C9: a failed `addFeedback` is not atomic — for an id currently watching
some OID, `addFeedback(id, s)` with an invalid `s` throws `Invalid OID` but
has already removed the previous watch: afterwards `getOidForFeedback(id)`
is undefined, the id appears in no watcher set, and the tracker state has
changed even though the call failed. -/
theorem claim_C9_failed_addFeedback_mutates (ops : List TrackerOp) (id oid w : JStr)
    (hw : (runOps ops).getOidForFeedback id = some w)
    (hv : isValidSnmpOid (trimOid oid) = false) :
    ((runOps ops).addFeedback id oid).2 = some (trimOid oid) ∧
    ((runOps ops).addFeedback id oid).1.getOidForFeedback id = none ∧
    (∀ o, id ∉ ((runOps ops).addFeedback id oid).1.getFeedbacksForOid o) ∧
    ((runOps ops).addFeedback id oid).1 ≠ runOps ops := by
  have hwf := runOps_WF ops
  have heq := @addFeedback_invalid (runOps ops) id oid hv
  have hgone := removeFeedback_gone hwf id
  have hnone : ((runOps ops).addFeedback id oid).1.getOidForFeedback id = none := by
    rw [heq]
    exact hgone.1
  refine ⟨by rw [heq], hnone, ?_, ?_⟩
  · intro o
    rw [heq]
    show id ∉ ((runOps ops).removeFeedback id).getFeedbacksForOid o
    unfold FeedbackOidTracker.getFeedbacksForOid
    cases hlo : lookupA ((runOps ops).removeFeedback id).oidToFeedbacks o with
    | none => simp
    | some s => exact hgone.2 hlo
  · intro hcontra
    rw [hcontra] at hnone
    rw [hw] at hnone
    cases hnone

theorem claim_C9_witness :
    ((runOps [.add "fb1".data "1.3".data]).addFeedback "fb1".data "bad".data).2 =
        some (trimOid "bad".data) ∧
      ((runOps [.add "fb1".data "1.3".data]).addFeedback "fb1".data
        "bad".data).1.getOidForFeedback "fb1".data = none := by
  have h := claim_C9_failed_addFeedback_mutates [.add "fb1".data "1.3".data] "fb1".data
    "bad".data "1.3".data (by decide) (by decide)
  exact ⟨h.1, h.2.1⟩

/-- The Counter64 branch of `validateAndConvertVarbind`, isolated. -/
theorem validate_counter64 {oid s : JStr} (hoid : isValidSnmpOid (trimOid oid) = true) :
    validateAndConvertVarbind ⟨oid, ObjTy.Counter64, .jstr s⟩ =
      (match jsBigIntOfString s with
       | none => .error (.cannotConvertCounter64 s)
       | some n =>
         if n < 0 || n > UINT64_MAX then .error (.counter64OutOfRange n)
         else .ok ⟨trimOid oid, ObjTy.Counter64,
           .jbuffer (hexToBytes (padStart 16 '0' (natToHex n.toNat)))⟩) := by
  unfold validateAndConvertVarbind
  rw [if_neg (by simp [hoid])]
  rfl

/-- The Counter64 branch after a successful `BigInt` parse. -/
theorem validate_counter64_parsed {oid s : JStr} {n : Int}
    (hoid : isValidSnmpOid (trimOid oid) = true)
    (hparse : jsBigIntOfString s = some n) :
    validateAndConvertVarbind ⟨oid, ObjTy.Counter64, .jstr s⟩ =
      (if n < 0 || n > UINT64_MAX then .error (.counter64OutOfRange n)
       else .ok ⟨trimOid oid, ObjTy.Counter64,
         .jbuffer (hexToBytes (padStart 16 '0' (natToHex n.toNat)))⟩) := by
  rw [validate_counter64 hoid, hparse]

/-- C6: for every string that `BigInt` parses to an integer `n` (in
particular every decimal string), the Counter64 case of
`validateAndConvertVarbind` produces, for `0 ≤ n ≤ 2^64−1`, an 8-byte
big-endian buffer whose `bufferToBigInt` is exactly `n`, and throws the
range error for any `n` outside `[0, 2^64−1]`. -/
theorem claim_C6_counter64_roundtrip (oid s : JStr) (n : Int)
    (hoid : isValidSnmpOid (trimOid oid) = true)
    (hparse : jsBigIntOfString s = some n) :
    (0 ≤ n → n ≤ UINT64_MAX →
      ∃ bs : List Nat,
        validateAndConvertVarbind ⟨oid, ObjTy.Counter64, .jstr s⟩ =
            .ok ⟨trimOid oid, ObjTy.Counter64, .jbuffer bs⟩ ∧
          bs.length = 8 ∧ bufferToBigInt bs 0 bs.length = some n) ∧
    ((n < 0 ∨ UINT64_MAX < n) →
      validateAndConvertVarbind ⟨oid, ObjTy.Counter64, .jstr s⟩ =
        .error (.counter64OutOfRange n)) := by
  rw [validate_counter64_parsed hoid hparse]
  constructor
  · intro h0 hle
    have hcond : (decide (n < 0) || decide (n > UINT64_MAX)) = false := by
      simp [not_lt.mpr h0, not_lt.mpr hle]
    rw [if_neg (by rw [hcond]; exact Bool.false_ne_true)]
    have hm : n.toNat < 16 ^ 16 := by
      have h1 : n.toNat ≤ (18446744073709551615 : Int).toNat := Int.toNat_le_toNat hle
      have h2 : (16 : Nat) ^ 16 = 18446744073709551616 := by norm_num
      omega
    have hlenle : (natToHex n.toNat).length ≤ 16 := by
      unfold natToHex
      by_cases h : n.toNat = 0
      · rw [if_pos h]; decide
      · rw [if_neg h]; exact natHexDigits_length_le 16 n.toNat hm
    have hhexlen : (padStart 16 '0' (natToHex n.toNat)).length = 16 := by
      unfold padStart
      rw [List.length_append, List.length_replicate]
      omega
    have hhexmem : ∀ c ∈ padStart 16 '0' (natToHex n.toNat), c ∈ lowerHexChars := by
      intro c hc
      unfold padStart at hc
      rcases List.mem_append.mp hc with h | h
      · rcases List.eq_of_mem_replicate h with rfl
        decide
      · revert h
        unfold natToHex
        by_cases h : n.toNat = 0
        · rw [if_pos h]
          intro hmem
          rcases List.mem_singleton.mp hmem with rfl
          decide
        · rw [if_neg h]
          exact natHexDigits_mem n.toNat c
    have hb := bytesToHex_hexToBytes hhexmem (by rw [hhexlen])
    have hlen : (hexToBytes (padStart 16 '0' (natToHex n.toNat))).length = 8 := by
      have h2 := bytesToHex_length (hexToBytes (padStart 16 '0' (natToHex n.toNat)))
      rw [hb, hhexlen] at h2
      omega
    refine ⟨hexToBytes (padStart 16 '0' (natToHex n.toNat)), rfl, hlen, ?_⟩
    have hslice : bufSlice (hexToBytes (padStart 16 '0' (natToHex n.toNat))) 0
        (hexToBytes (padStart 16 '0' (natToHex n.toNat))).length =
        hexToBytes (padStart 16 '0' (natToHex n.toNat)) := by
      unfold bufSlice
      rw [List.take_length, List.drop_zero]
    unfold bufferToBigInt
    rw [hslice, hb, jsBigIntOfString_hexCons hhexmem
      (by intro hh; rw [hh] at hhexlen; cases hhexlen)]
    have hrv : radixVal 16 (padStart 16 '0' (natToHex n.toNat)) = n.toNat := by
      unfold padStart
      rw [radixVal_zeros_append]
      unfold natToHex
      by_cases h : n.toNat = 0
      · rw [if_pos h, h]; rfl
      · rw [if_neg h]; exact radixVal_natHexDigits n.toNat
    rw [hrv]
    congr 1
    exact Int.toNat_of_nonneg h0
  · intro h
    have hcond : (decide (n < 0) || decide (n > UINT64_MAX)) = true := by
      rcases h with h | h <;> simp [h]
    rw [if_pos (by rw [hcond])]

theorem claim_C6_witness :
    (∃ bs : List Nat,
      validateAndConvertVarbind
          ⟨"1.3".data, ObjTy.Counter64, .jstr "18446744073709551615".data⟩ =
          .ok ⟨trimOid "1.3".data, ObjTy.Counter64, .jbuffer bs⟩ ∧
        bs.length = 8 ∧ bufferToBigInt bs 0 bs.length = some 18446744073709551615) ∧
    validateAndConvertVarbind
        ⟨"1.3".data, ObjTy.Counter64, .jstr "18446744073709551616".data⟩ =
      .error (.counter64OutOfRange 18446744073709551616) := by
  constructor
  · exact (claim_C6_counter64_roundtrip "1.3".data "18446744073709551615".data
      18446744073709551615 (by decide) (by decide)).1 (by decide) (by decide)
  · exact (claim_C6_counter64_roundtrip "1.3".data "18446744073709551616".data
      18446744073709551616 (by decide) (by decide)).2 (Or.inr (by decide))

/-- The Boolean branch of `validateAndConvertVarbind`, isolated. -/
theorem validate_boolean {oid : JStr} (w : JSValue)
    (hoid : isValidSnmpOid (trimOid oid) = true) :
    validateAndConvertVarbind ⟨oid, ObjTy.Boolean, w⟩ =
      (if jsTrim (jsToLower (rawOf w)) = "true".data ||
          jsTrim (jsToLower (rawOf w)) = "1".data ||
          jsTrim (jsToLower (rawOf w)) = "on".data ||
          jsTrim (jsToLower (rawOf w)) = "yes".data then
        .ok ⟨trimOid oid, ObjTy.Boolean, .jbool true⟩
      else if jsTrim (jsToLower (rawOf w)) = "false".data ||
          jsTrim (jsToLower (rawOf w)) = "0".data ||
          jsTrim (jsToLower (rawOf w)) = "off".data ||
          jsTrim (jsToLower (rawOf w)) = "no".data then
        .ok ⟨trimOid oid, ObjTy.Boolean, .jbool false⟩
      else .error (.cannotConvertBoolean (jsTrim (jsToLower (rawOf w))))) := by
  unfold validateAndConvertVarbind
  rw [if_neg (by simp [hoid])]
  rfl

/-- C10: `validateAndConvertVarbind` stringifies the value first
(`value?.toString() ?? ''`, so `null`/`undefined` become the empty string)
and its result depends only on that string — it never type-errors on a
non-string value; in particular the native boolean `true` and the number
`1` are accepted as Boolean `true`, every value yields either a converted
Boolean varbind or the Boolean conversion error, and a null-valued Boolean
varbind throws that conversion error (for the empty string). -/
theorem claim_C10_stringify_first (oid : JStr) (v : JSValue) (t : Nat)
    (hoid : isValidSnmpOid (trimOid oid) = true) :
    (validateAndConvertVarbind ⟨oid, t, v⟩ =
      validateAndConvertVarbind ⟨oid, t, .jstr (rawOf v)⟩) ∧
    rawOf .jnull = [] ∧ rawOf .jundefined = [] ∧
    ((∃ b, validateAndConvertVarbind ⟨oid, ObjTy.Boolean, v⟩ =
        .ok ⟨trimOid oid, ObjTy.Boolean, .jbool b⟩) ∨
      validateAndConvertVarbind ⟨oid, ObjTy.Boolean, v⟩ =
        .error (.cannotConvertBoolean (jsTrim (jsToLower (rawOf v))))) ∧
    validateAndConvertVarbind ⟨oid, ObjTy.Boolean, .jbool true⟩ =
      .ok ⟨trimOid oid, ObjTy.Boolean, .jbool true⟩ ∧
    validateAndConvertVarbind ⟨oid, ObjTy.Boolean, .jnum 1⟩ =
      .ok ⟨trimOid oid, ObjTy.Boolean, .jbool true⟩ ∧
    validateAndConvertVarbind ⟨oid, ObjTy.Boolean, .jnull⟩ =
      .error (.cannotConvertBoolean []) := by
  have hraw : rawOf (.jstr (rawOf v)) = rawOf v := by cases v <;> rfl
  refine ⟨?_, rfl, rfl, ?_, ?_, ?_, ?_⟩
  · unfold validateAndConvertVarbind
    rw [hraw]
  · rw [validate_boolean v hoid]
    by_cases h1 : (jsTrim (jsToLower (rawOf v)) = "true".data ||
        jsTrim (jsToLower (rawOf v)) = "1".data ||
        jsTrim (jsToLower (rawOf v)) = "on".data ||
        jsTrim (jsToLower (rawOf v)) = "yes".data) = true
    · exact Or.inl ⟨true, by rw [if_pos h1]⟩
    · rw [if_neg h1]
      by_cases h2 : (jsTrim (jsToLower (rawOf v)) = "false".data ||
          jsTrim (jsToLower (rawOf v)) = "0".data ||
          jsTrim (jsToLower (rawOf v)) = "off".data ||
          jsTrim (jsToLower (rawOf v)) = "no".data) = true
      · exact Or.inl ⟨false, by rw [if_pos h2]⟩
      · exact Or.inr (by rw [if_neg h2])
  · rw [validate_boolean (.jbool true) hoid]
    rfl
  · rw [validate_boolean (.jnum 1) hoid]
    rfl
  · rw [validate_boolean .jnull hoid]
    rfl

theorem claim_C10_witness :
    validateAndConvertVarbind ⟨"1.3".data, ObjTy.Boolean, .jbool true⟩ =
        .ok ⟨trimOid "1.3".data, ObjTy.Boolean, .jbool true⟩ ∧
      validateAndConvertVarbind ⟨"1.3".data, ObjTy.Boolean, .jnull⟩ =
        .error (.cannotConvertBoolean []) := by
  have h := claim_C10_stringify_first "1.3".data (.jstr "x".data) ObjTy.OctetString (by decide)
  exact ⟨h.2.2.2.2.1, h.2.2.2.2.2.2⟩

end GenericSnmp
